import Mathlib

/-!
Verification of the `projetc7` VM-to-Hack-assembly translator
(`src/projetc7/src/parser.rs`, `src/projetc7/src/code_writer.rs`).

The translator's emitted assembly text lines are embedded as a structured
`Line` type (one constructor per distinct emission form in the source), with
`render` recovering the exact text.  A small Hack-machine interpreter gives
the emitted code its runtime semantics: one data register `D`, one address
register `A`, flat RAM, 16-bit two's-complement arithmetic (`wrap`).
-/

namespace VMTrans

/-- 16-bit two's-complement normalisation: the target machine's word size. -/
def wrap (x : Int) : Int := (x + 32768) % 65536 - 32768

/-- Destination register of a C-instruction (only single destinations occur
in the translator's output). -/
inductive Dest where
  | A | D | M
deriving DecidableEq, Repr

/-- The ALU computations that appear in the translator's output. -/
inductive Comp where
  | constZero   -- 0
  | constNegOne -- -1
  | regA        -- A
  | regD        -- D
  | regM        -- M
  | notD        -- !D
  | mMinusOne   -- M-1
  | mPlusOne    -- M+1
  | dPlusM      -- D+M
  | dMinusM     -- D-M
  | dAndM       -- D&M
  | dOrM        -- D|M
  | aMinusD     -- A-D
  | dPlusA      -- D+A
deriving DecidableEq, Repr

/-- Jump conditions appearing in the translator's output. -/
inductive Jmp where
  | jeq | jgt | jlt | jmp
deriving DecidableEq, Repr

/-- One emitted text line.  Each constructor corresponds to one distinct
formatting form in `code_writer.rs`: comments, the blank separator, `@`
instructions with a numeric literal (`@{index}`), with a fixed register
symbol (`@SP`, `@R13`, ...), with a static-variable symbol (`@{file}.{i}`),
with a generated label name (`@EQ0`, `@ENDEQ0`, ...), label definitions
(`(EQ0)`), and C-instructions. -/
inductive Line where
  | comment  (s : String)
  | blank
  | atNum    (n : Int)
  | atSym    (s : String)
  | atStatic (unit : String) (idx : Int)
  | atLabel  (s : String)
  | labelDef (s : String)
  | c        (dest : Option Dest) (comp : Comp) (jump : Option Jmp)
deriving DecidableEq, Repr

def Dest.render : Dest → String
  | .A => "A" | .D => "D" | .M => "M"

def Comp.render : Comp → String
  | .constZero => "0" | .constNegOne => "-1" | .regA => "A" | .regD => "D"
  | .regM => "M" | .notD => "!D" | .mMinusOne => "M-1" | .mPlusOne => "M+1"
  | .dPlusM => "D+M" | .dMinusM => "D-M" | .dAndM => "D&M" | .dOrM => "D|M"
  | .aMinusD => "A-D" | .dPlusA => "D+A"

def Jmp.render : Jmp → String
  | .jeq => "JEQ" | .jgt => "JGT" | .jlt => "JLT" | .jmp => "JMP"

/-- The exact text of an emitted line, as `code_writer.rs` writes it. -/
def Line.render : Line → String
  | .comment s => "// " ++ s
  | .blank => ""
  | .atNum n => "@" ++ toString n
  | .atSym s => "@" ++ s
  | .atStatic u i => "@" ++ u ++ "." ++ toString i
  | .atLabel s => "@" ++ s
  | .labelDef s => "(" ++ s ++ ")"
  | .c d cp j =>
      (match d with | some d' => d'.render ++ "=" | none => "")
      ++ cp.render
      ++ (match j with | some j' => ";" ++ j'.render | none => "")

/-! ### The Hack machine -/

/-- Machine state: address register, data register, flat RAM. -/
structure Mach where
  A : Int
  D : Int
  ram : Nat → Int

/-- Predefined register symbols of the Hack platform used by the emitted
code (`SP`=0, `LCL`=1, `ARG`=2, `THIS`=3, `THAT`=4, `R5`=5, `R13`, `R14`). -/
def predefAddr : String → Option Nat
  | "SP" => some 0
  | "LCL" => some 1
  | "ARG" => some 2
  | "THIS" => some 3
  | "THAT" => some 4
  | "R5" => some 5
  | "R13" => some 13
  | "R14" => some 14
  | _ => none

/-- Position of label `s` in the program (the downstream assembler resolves
`@label` to the address of the labelled instruction). -/
def findLabel (prog : List Line) (s : String) : Option Nat :=
  prog.findIdx? fun l => match l with
    | .labelDef t => t == s
    | _ => false

/-- Value of a computation, normalised to a 16-bit word. -/
def evalComp (m : Mach) : Comp → Int
  | .constZero => 0
  | .constNegOne => -1
  | .regA => wrap m.A
  | .regD => wrap m.D
  | .regM => wrap (m.ram m.A.toNat)
  | .notD => wrap (-m.D - 1)
  | .mMinusOne => wrap (m.ram m.A.toNat - 1)
  | .mPlusOne => wrap (m.ram m.A.toNat + 1)
  | .dPlusM => wrap (m.D + m.ram m.A.toNat)
  | .dMinusM => wrap (m.D - m.ram m.A.toNat)
  | .dAndM => wrap (Int.land m.D (m.ram m.A.toNat))
  | .dOrM => wrap (Int.lor m.D (m.ram m.A.toNat))
  | .aMinusD => wrap (m.A - m.D)
  | .dPlusA => wrap (m.D + m.A)

def applyDest (m : Mach) (v : Int) : Option Dest → Mach
  | none => m
  | some .A => { m with A := v }
  | some .D => { m with D := v }
  | some .M => { m with ram := Function.update m.ram m.A.toNat v }

def jumpTaken (v : Int) : Jmp → Bool
  | .jeq => v == 0
  | .jgt => decide (0 < v)
  | .jlt => decide (v < 0)
  | .jmp => true

/-- Effect of one line.  `senv` resolves static-variable symbols to RAM
addresses (the downstream assembler's variable allocation).  Returns the new
state and program counter, or `none` on an unresolvable symbol. -/
def execLine (prog : List Line) (senv : String → Int → Nat) (m : Mach)
    (pc : Nat) : Line → Option (Mach × Nat)
  | .comment _ => some (m, pc + 1)
  | .blank => some (m, pc + 1)
  | .labelDef _ => some (m, pc + 1)
  | .atNum n => some ({ m with A := wrap n }, pc + 1)
  | .atSym s =>
      match predefAddr s with
      | some a => some ({ m with A := (a : Int) }, pc + 1)
      | none => none
  | .atStatic u i => some ({ m with A := (senv u i : Int) }, pc + 1)
  | .atLabel s =>
      match findLabel prog s with
      | some a => some ({ m with A := (a : Int) }, pc + 1)
      | none => none
  | .c d cp j =>
      let v := evalComp m cp
      let pc' := match j with
        | some j' => if jumpTaken v j' then m.A.toNat else pc + 1
        | none => pc + 1
      some (applyDest m v d, pc')

/-- Run the program from `pc` until the program counter leaves the program.
The emitted code only ever jumps forward, so execution where the program
counter fails to increase is rejected (`none`), which makes the recursion
well-founded. -/
def runFrom (prog : List Line) (senv : String → Int → Nat) (m : Mach)
    (pc : Nat) : Option Mach :=
  if hl : pc < prog.length then
    match execLine prog senv m pc (prog.getD pc .blank) with
    | none => none
    | some (m', pc') =>
        if h2 : pc < pc' then runFrom prog senv m' pc' else none
  else some m
termination_by prog.length - pc

/-- Execute exactly `fuel` lines, keeping track of the program counter.
Structurally recursive, so concrete runs reduce definitionally. -/
def stepN (prog : List Line) (senv : String → Int → Nat) :
    Nat → Mach → Nat → Option (Mach × Nat)
  | 0, m, pc => some (m, pc)
  | fuel + 1, m, pc =>
      if prog.length ≤ pc then none
      else
        match execLine prog senv m pc (prog.getD pc .blank) with
        | none => none
        | some (m', pc') =>
            if pc < pc' then stepN prog senv fuel m' pc' else none

/-! ### Decimal rendering of the label counter

`natToStr` is ordinary decimal notation, as Rust's `Display` for `usize`
prints the label counter into `format!("{}{}", label_prefix, label_num)`. -/

def digitChar : Nat → Char
  | 0 => '0' | 1 => '1' | 2 => '2' | 3 => '3' | 4 => '4'
  | 5 => '5' | 6 => '6' | 7 => '7' | 8 => '8' | _ => '9'

def natDigitsAux : Nat → Nat → List Char
  | 0, _ => []
  | fuel + 1, n =>
      if n < 10 then [digitChar n]
      else natDigitsAux fuel (n / 10) ++ [digitChar (n % 10)]

def natDigits (n : Nat) : List Char := natDigitsAux (n + 1) n

def natToStr (n : Nat) : String := ⟨natDigits n⟩

/-! ### The code writer (`code_writer.rs`) -/

/-- `SegmentSymbol` from `code_writer.rs`. -/
inductive SegmentSymbol where
  | Local | Argument | This | That | Temp | Pointer | Static | Constant
deriving DecidableEq, Repr

/-- `SegmentSymbol::from_str`. -/
def SegmentSymbol.from_str : String → Option SegmentSymbol
  | "local" => some .Local
  | "argument" => some .Argument
  | "this" => some .This
  | "that" => some .That
  | "temp" => some .Temp
  | "pointer" => some .Pointer
  | "static" => some .Static
  | "constant" => some .Constant
  | _ => none

/-- `SegmentSymbol::symbol`. -/
def SegmentSymbol.symbol : SegmentSymbol → String
  | .Local => "LCL"
  | .Argument => "ARG"
  | .This => "THIS"
  | .That => "THAT"
  | .Temp => "R5"
  | .Pointer => "THIS"      -- Special case handled separately
  | .Static => "STATIC"     -- Special case handled separately
  | .Constant => "CONSTANT" -- Special case handled separately

/-- The writer state set up by `CodeWriter::new` (I/O plumbing aside):
label counter 0, empty translation-unit name. -/
structure CodeWriterState where
  label_counter : Nat
  filename : String

/-- `CodeWriter::new` (the output-file handle itself is external I/O). -/
def CodeWriter.new : CodeWriterState :=
  { label_counter := 0, filename := "" }

/-- Split a character list at every occurrence of `sep` (like
`String.splitOn` for a one-character separator). -/
def splitOnChar (sep : Char) : List Char → List (List Char)
  | [] => [[]]
  | ch :: rest =>
      match splitOnChar sep rest with
      | [] => if ch = sep then [[], [ch]] else [[ch]]
      | h :: t => if ch = sep then [] :: h :: t else (ch :: h) :: t

/-- Rust `Path::file_stem().and_then(to_str)`: the final path component
without its extension (the whole component when it has no embedded `.`, or
when it is a dotfile like `".vm"`); `none` for an empty final component. -/
def file_stem (path : String) : Option String :=
  let name := ((splitOnChar '/' path.data).getLast?).getD []
  if name = [] then none
  else
    match splitOnChar '.' name with
    | [] => some ⟨name⟩
    | [_] => some ⟨name⟩
    | p :: rest =>
        if p = [] ∧ rest.length = 1 then some ⟨name⟩
        else some ⟨List.intercalate ['.'] ((p :: rest).dropLast)⟩

/-- `CodeWriter::set_filename`: stores the stem of the input file name
(`"Unknown"` when there is none). -/
def set_filename (path : String) : String := (file_stem path).getD "Unknown"

/-- `CodeWriter::write_push_d`. -/
def write_push_d : List Line :=
  [.comment "push the value into stack",
   .atSym "SP",
   .c (some .A) .regM none,
   .c (some .M) .regD none,
   .atSym "SP",
   .c (some .M) .mPlusOne none]

/-- `CodeWriter::write_pop_to_d`. -/
def write_pop_to_d : List Line :=
  [.comment "get the top element of stack",
   .atSym "SP",
   .c (some .M) .mMinusOne none,
   .c (some .A) .regM none,
   .c (some .D) .regM none]

/-- `CodeWriter::write_binary_op`; `operation` is the `D={}` computation
(`D+M`, `D-M`, `D&M` or `D|M`). -/
def write_binary_op (operation : Comp) : List Line :=
  [.comment "get the top element of stack",
   .atSym "SP",
   .c (some .M) .mMinusOne none,
   .c (some .A) .regM none,
   .c (some .D) .regM none,
   .comment "store the result temporarily",
   .atSym "R14",
   .c (some .M) .regD none,
   .comment "get the top element of stack",
   .atSym "SP",
   .c (some .M) .mMinusOne none,
   .c (some .A) .regM none,
   .c (some .D) .regM none,
   .comment "store the result temporarily",
   .atSym "R13",
   .c (some .M) .regD none,
   .atSym "R13",
   .c (some .D) .regM none,
   .atSym "R14",
   .c (some .D) operation none]
  ++ write_push_d ++ [.blank]

/-- `CodeWriter::write_unary_op`. -/
def write_unary_op (is_neg : Bool) : List Line :=
  [.comment "get the top element of stack",
   .atSym "SP",
   .c (some .M) .mMinusOne none,
   .c (some .A) .regM none,
   .c (some .D) .regM none]
  ++ (if is_neg then [.atNum 0, .c (some .D) .aMinusD none]
      else [.c (some .D) .notD none])
  ++ write_push_d ++ [.blank]

/-- The `label_prefix` computed at the top of `write_comparison`
(`"JEQ" => "EQ"`, `"JGT" => "GT"`, `"JLT" => "LT"`, `_ => jump`). -/
def labelStem : Jmp → String
  | .jeq => "EQ"
  | .jgt => "GT"
  | .jlt => "LT"
  | .jmp => "JMP"

/-- `CodeWriter::write_comparison`: reads the label counter, increments it,
and emits the compare-and-branch block. -/
def write_comparison (jump : Jmp) (label_counter : Nat) : List Line × Nat :=
  let lp := labelStem jump
  let label_num := label_counter
  ([.comment "get the top element of stack",
    .atSym "SP",
    .c (some .M) .mMinusOne none,
    .c (some .A) .regM none,
    .c (some .D) .regM none,
    .comment "store the result temporarily",
    .atSym "R14",
    .c (some .M) .regD none,
    .comment "get the top element of stack",
    .atSym "SP",
    .c (some .M) .mMinusOne none,
    .c (some .A) .regM none,
    .c (some .D) .regM none,
    .comment "store the result temporarily",
    .atSym "R13",
    .c (some .M) .regD none,
    .atSym "R13",
    .c (some .D) .regM none,
    .atSym "R14",
    .c (some .D) .dMinusM none,
    .atLabel (lp ++ natToStr label_num),
    .c none .regD (some jump),
    .comment "push the value into stack",
    .atSym "SP",
    .c (some .A) .regM none,
    .c (some .M) .constZero none,
    .atSym "SP",
    .c (some .M) .mPlusOne none,
    .atLabel ("END" ++ lp ++ natToStr label_num),
    .c none .constZero (some .jmp),
    .labelDef (lp ++ natToStr label_num),
    .comment "push the value into stack",
    .atSym "SP",
    .c (some .A) .regM none,
    .c (some .M) .constNegOne none,
    .atSym "SP",
    .c (some .M) .mPlusOne none,
    .labelDef ("END" ++ lp ++ natToStr label_num),
    .blank],
   label_counter + 1)

/-- `CodeWriter::write_arithmetic`: the command echo comment followed by the
dispatch on the nine mnemonics; `none` models the `panic!` on an unknown
mnemonic.  Returns the emitted lines and the updated label counter. -/
def write_arithmetic (command : String) (label_counter : Nat) :
    Option (List Line × Nat) :=
  let echo : Line := .comment ("vm command:" ++ command)
  match command with
  | "add" => some (echo :: write_binary_op .dPlusM, label_counter)
  | "sub" => some (echo :: write_binary_op .dMinusM, label_counter)
  | "and" => some (echo :: write_binary_op .dAndM, label_counter)
  | "or"  => some (echo :: write_binary_op .dOrM, label_counter)
  | "neg" => some (echo :: write_unary_op true, label_counter)
  | "not" => some (echo :: write_unary_op false, label_counter)
  | "eq" =>
      let r := write_comparison .jeq label_counter
      some (echo :: r.1, r.2)
  | "gt" =>
      let r := write_comparison .jgt label_counter
      some (echo :: r.1, r.2)
  | "lt" =>
      let r := write_comparison .jlt label_counter
      some (echo :: r.1, r.2)
  | _ => none

/-- `CodeWriter::write_push`; `none` models the `panic!("Unknown segment")`. -/
def write_push (filename : String) (segment : String) (index : Int) :
    Option (List Line) :=
  match SegmentSymbol.from_str segment with
  | some .Constant =>
      some ([.atNum index, .c (some .D) .regA none] ++ write_push_d)
  | some .Local =>
      some ([.atSym (SegmentSymbol.symbol .Local), .c (some .D) .regM none,
             .atNum index, .c (some .A) .dPlusA none, .c (some .D) .regM none]
            ++ write_push_d)
  | some .Argument =>
      some ([.atSym (SegmentSymbol.symbol .Argument), .c (some .D) .regM none,
             .atNum index, .c (some .A) .dPlusA none, .c (some .D) .regM none]
            ++ write_push_d)
  | some .This =>
      some ([.atSym (SegmentSymbol.symbol .This), .c (some .D) .regM none,
             .atNum index, .c (some .A) .dPlusA none, .c (some .D) .regM none]
            ++ write_push_d)
  | some .That =>
      some ([.atSym (SegmentSymbol.symbol .That), .c (some .D) .regM none,
             .atNum index, .c (some .A) .dPlusA none, .c (some .D) .regM none]
            ++ write_push_d)
  | some .Temp =>
      some ([.atSym "R5", .c (some .D) .regA none,
             .atNum index, .c (some .A) .dPlusA none, .c (some .D) .regM none]
            ++ write_push_d)
  | some .Pointer =>
      some ([.atSym "THIS", .c (some .D) .regA none,
             .atNum index, .c (some .A) .dPlusA none, .c (some .D) .regM none]
            ++ write_push_d)
  | some .Static =>
      some ([.atStatic filename index, .c (some .D) .regM none] ++ write_push_d)
  | none => none

/-- The shared tail of the base-relative / temp / pointer pop cases:
`// store the top value`, `@R13`, `A=M`, `M=D`. -/
def pop_store_tail : List Line :=
  [.comment "store the top value",
   .atSym "R13",
   .c (some .A) .regM none,
   .c (some .M) .regD none]

/-- `CodeWriter::write_pop`; `none` models `panic!("Cannot pop to segment")`
(which `constant` and unknown segments reach). -/
def write_pop (filename : String) (segment : String) (index : Int) :
    Option (List Line) :=
  match SegmentSymbol.from_str segment with
  | some .Local =>
      some ([.atSym (SegmentSymbol.symbol .Local), .c (some .D) .regM none,
             .atNum index, .c (some .D) .dPlusA none,
             .comment "store the result temporarily",
             .atSym "R13", .c (some .M) .regD none]
            ++ write_pop_to_d ++ pop_store_tail)
  | some .Argument =>
      some ([.atSym (SegmentSymbol.symbol .Argument), .c (some .D) .regM none,
             .atNum index, .c (some .D) .dPlusA none,
             .comment "store the result temporarily",
             .atSym "R13", .c (some .M) .regD none]
            ++ write_pop_to_d ++ pop_store_tail)
  | some .This =>
      some ([.atSym (SegmentSymbol.symbol .This), .c (some .D) .regM none,
             .atNum index, .c (some .D) .dPlusA none,
             .comment "store the result temporarily",
             .atSym "R13", .c (some .M) .regD none]
            ++ write_pop_to_d ++ pop_store_tail)
  | some .That =>
      some ([.atSym (SegmentSymbol.symbol .That), .c (some .D) .regM none,
             .atNum index, .c (some .D) .dPlusA none,
             .comment "store the result temporarily",
             .atSym "R13", .c (some .M) .regD none]
            ++ write_pop_to_d ++ pop_store_tail)
  | some .Temp =>
      some ([.atNum 5, .c (some .D) .regA none,
             .atNum index, .c (some .D) .dPlusA none,
             .comment "store the result temporarily",
             .atSym "R13", .c (some .M) .regD none]
            ++ write_pop_to_d ++ pop_store_tail)
  | some .Pointer =>
      some ([.atSym "THIS", .c (some .D) .regA none,
             .atNum index, .c (some .D) .dPlusA none,
             .comment "store the result temporarily",
             .atSym "R13", .c (some .M) .regD none]
            ++ write_pop_to_d ++ pop_store_tail)
  | some .Static =>
      some (write_pop_to_d ++ [.atStatic filename index, .c (some .M) .regD none])
  | _ => none

/-- `CodeWriter::write_push_pop`: the `// vm command:{} {} {}` echo, then the
push body, the pop body, or — for any other command string — nothing, then
the trailing blank line.  `none` models a `panic!` from the body. -/
def write_push_pop (filename : String) (command : String) (segment : String)
    (index : Int) : Option (List Line) :=
  let echo : Line :=
    .comment ("vm command:" ++ command ++ " " ++ segment ++ " " ++ toString index)
  let body : Option (List Line) :=
    if command = "push" then write_push filename segment index
    else if command = "pop" then write_pop filename segment index
    else some []
  match body with
  | none => none
  | some b => some (echo :: b ++ [.blank])

/-! ### The parser (`parser.rs`) -/

/-- `CommandType` from `parser.rs`. -/
inductive CommandType where
  | Arithmetic | Push | Pop | Label | Goto | If | Function | Return | Call
deriving DecidableEq, Repr

/-- `Parser::command_type`, as a function of the first whitespace token of
the current command.  Note the catch-all: any unrecognised token maps to
`Arithmetic`. -/
def command_type (first : String) : CommandType :=
  match first with
  | "push" => .Push
  | "pop" => .Pop
  | "label" => .Label
  | "goto" => .Goto
  | "if-goto" => .If
  | "function" => .Function
  | "return" => .Return
  | "call" => .Call
  | _ => .Arithmetic

/-- Rust's `str::parse::<i32>()`: optional sign, one or more ASCII digits,
nothing else, result within `i32` range; `none` is `Err`. -/
def parse_i32 (s : String) : Option Int :=
  let cs := s.data
  let signDigits : Int × List Char :=
    match cs with
    | '+' :: rest => (1, rest)
    | '-' :: rest => (-1, rest)
    | _ => (1, cs)
  let sign := signDigits.1
  let ds := signDigits.2
  if ds.isEmpty then none
  else if ds.all (fun ch => ch.isDigit) then
    let mag : Nat := ds.foldl (fun acc ch => acc * 10 + (ch.toNat - 48)) 0
    if sign = 1 then
      if mag ≤ 2147483647 then some (mag : Int) else none
    else
      if mag ≤ 2147483648 then some (-(mag : Int)) else none
  else none

/-- `Parser::arg2`: defined for `Push`/`Pop`/`Function`/`Call` only; fetches
the third token and parses it as `i32`.  `none` models the panics
(`debug_assert!`/index out of bounds on a missing token, `expect` on a parse
failure, and the explicit `panic!` for other command kinds). -/
def arg2 (parts : List String) : Option Int :=
  match parts with
  | [] => none
  | first :: _ =>
      match command_type first with
      | .Push | .Pop | .Function | .Call =>
          match parts.get? 2 with
          | none => none
          | some s => parse_i32 s
      | _ => none

/-! ### A translation run (the driver loop in `main.rs`) -/

/-- One already-tokenised VM command, as dispatched by `translate` in
`main.rs`: either an arithmetic mnemonic or a push/pop with segment and
index. -/
inductive VmCmd where
  | arith (command : String)
  | pushpop (command : String) (segment : String) (index : Int)

/-- Translate a command list, threading the label counter as the driver
loop does via the single `CodeWriter`.  Returns all emitted lines and the
final counter; `none` if any command panics. -/
def translateCmds (filename : String) : List VmCmd → Nat → Option (List Line × Nat)
  | [], c => some ([], c)
  | .arith s :: rest, c =>
      match write_arithmetic s c with
      | none => none
      | some (ls, c') =>
          match translateCmds filename rest c' with
          | none => none
          | some (ls', c'') => some (ls ++ ls', c'')
  | .pushpop cm seg i :: rest, c =>
      match write_push_pop filename cm seg i with
      | none => none
      | some ls =>
          match translateCmds filename rest c with
          | none => none
          | some (ls', c'') => some (ls ++ ls', c'')

/-- The label strings defined by the emitted code (`(LABEL)` lines). -/
def labelsOf (ls : List Line) : List String :=
  ls.filterMap fun l => match l with
    | .labelDef s => some s
    | _ => none

/-- Whether a command is one of the three comparisons. -/
def isCmp : VmCmd → Bool
  | .arith s => s == "eq" || s == "gt" || s == "lt"
  | .pushpop _ _ _ => false

/-- Decimal value of a digit string (inverse of `natDigits`). -/
def decodeDigits (cs : List Char) : Nat :=
  cs.foldl (fun a ch => a * 10 + (ch.toNat - 48)) 0

/-- A sample three-command run used to witness C4. -/
def c4SampleCmds : List VmCmd :=
  [.arith "eq", .pushpop "push" "constant" 1, .arith "lt"]

/-- The lines emitted for `c4SampleCmds` from a fresh context. -/
def c4SampleLines : List Line :=
  ((translateCmds "F" c4SampleCmds 0).map Prod.fst).getD []

/-- The emitted block for one `neg` command (echo comment plus
`write_unary_op true`), as produced by `write_arithmetic "neg"`. -/
def negProg : List Line := Line.comment "vm command:neg" :: write_unary_op true

/-- A concrete machine used to witness the execution theorems: `SP` = 256,
the stack cell 255 holds 7, everything else 0. -/
def c9Mach : Mach :=
  { A := 0, D := 0, ram := fun a => if a = 0 then 256 else if a = 255 then 7 else 0 }

/-! ### Concrete programs and machines used by the verification -/

def pushConstBlock (f : String) (n : Int) : List Line :=
  Line.comment ("vm command:" ++ "push" ++ " " ++ "constant" ++ " " ++ toString n) ::
    ([Line.atNum n, Line.c (some .D) .regA none] ++ write_push_d) ++ [Line.blank]

def subBlock : List Line :=
  Line.comment ("vm command:" ++ "sub") :: write_binary_op .dMinusM

def c1Prog (f : String) : List Line :=
  pushConstBlock f 5 ++ pushConstBlock f 3 ++ subBlock

def cmpBlock (op : String) (j : Jmp) : List Line :=
  Line.comment ("vm command:" ++ op) :: (write_comparison j 0).1

def c2Prog (f : String) (a b : Int) (op : String) (j : Jmp) : List Line :=
  pushConstBlock f a ++ pushConstBlock f b ++ cmpBlock op j

def pushPopPair (f seg : String) (i : Int) : List Line :=
  ((write_push_pop f "push" seg i).getD []) ++ ((write_push_pop f "pop" seg i).getD [])

def c6WMach : Mach :=
  { A := 0, D := 0,
    ram := fun a =>
      if a = 0 then 256 else if a = 1 then 300 else if a = 2 then 310
      else if a = 3 then 320 else if a = 4 then 330
      else if a = 300 then 7 else 0 }

/-! ## Theorems -/

theorem wrap_eq_self {x : Int} (h1 : -32768 ≤ x) (h2 : x < 32768) : wrap x = x := by
  unfold wrap
  omega

theorem wrap_lb (x : Int) : -32768 ≤ wrap x := by
  unfold wrap
  have := Int.emod_nonneg (x + 32768) (by norm_num : (65536:Int) ≠ 0)
  omega

theorem wrap_ub (x : Int) : wrap x < 32768 := by
  unfold wrap
  have := Int.emod_lt_of_pos (x + 32768) (by norm_num : (0:Int) < 65536)
  omega

@[simp] theorem wrap_wrap (x : Int) : wrap (wrap x) = wrap x :=
  wrap_eq_self (wrap_lb x) (wrap_ub x)

@[simp] theorem wrap_zero : wrap 0 = 0 := by decide

theorem runFrom_end {prog : List Line} {senv : String → Int → Nat} {m : Mach}
    {pc : Nat} (hl : prog.length ≤ pc) : runFrom prog senv m pc = some m := by
  rw [runFrom, dif_neg (by omega)]

theorem runFrom_step {prog : List Line} {senv : String → Int → Nat} {m m' : Mach}
    {pc pc' : Nat} (hl : pc < prog.length)
    (hexec : execLine prog senv m pc (prog.getD pc .blank) = some (m', pc'))
    (hlt : pc < pc') :
    runFrom prog senv m pc = runFrom prog senv m' pc' := by
  rw [runFrom, dif_pos hl, hexec]
  exact dif_pos hlt

theorem runFrom_unfold (prog : List Line) (senv : String → Int → Nat) (m : Mach)
    (pc : Nat) :
    runFrom prog senv m pc =
      if pc < prog.length then
        match execLine prog senv m pc (prog.getD pc .blank) with
        | none => none
        | some (m', pc') => if pc < pc' then runFrom prog senv m' pc' else none
      else some m := by
  rw [runFrom]
  rcases Nat.lt_or_ge pc prog.length with hl | hl
  · rw [dif_pos hl, if_pos hl]
    cases hexec : execLine prog senv m pc (prog.getD pc .blank) with
    | none => simp [hexec]
    | some q =>
        obtain ⟨m', pc'⟩ := q
        simp only [hexec]
        rcases Nat.lt_or_ge pc pc' with h2 | h2
        · rw [dif_pos h2, if_pos h2]
        · rw [dif_neg (by omega), if_neg (by omega)]
  · rw [dif_neg (by omega), if_neg (by omega)]

theorem stepN_sound {prog : List Line} {senv : String → Int → Nat} :
    ∀ {fuel : Nat} {m m' : Mach} {pc pc' : Nat},
      stepN prog senv fuel m pc = some (m', pc') →
      runFrom prog senv m pc = runFrom prog senv m' pc' := by
  intro fuel
  induction fuel with
  | zero =>
      intro m m' pc pc' h
      simp [stepN] at h
      rw [h.1, h.2]
  | succ f ih =>
      intro m m' pc pc' h
      rw [stepN] at h
      split at h
      · cases h
      · rename_i hl
        cases hexec : execLine prog senv m pc (prog.getD pc .blank) with
        | none => rw [hexec] at h; cases h
        | some q =>
            obtain ⟨m1, pc1⟩ := q
            rw [hexec] at h
            simp only at h
            split at h
            · rename_i hlt
              exact (runFrom_step (by omega) hexec hlt).trans (ih h)
            · cases h

theorem decodeDigits_append (xs : List Char) (ch : Char) :
    decodeDigits (xs ++ [ch]) = 10 * decodeDigits xs + (ch.toNat - 48) := by
  simp [decodeDigits, List.foldl_append]
  omega

theorem digitChar_toNat {k : Nat} (h : k < 10) : (digitChar k).toNat - 48 = k := by
  interval_cases k <;> rfl

theorem decode_natDigitsAux :
    ∀ (fuel n : Nat), n < fuel → decodeDigits (natDigitsAux fuel n) = n := by
  intro fuel
  induction fuel with
  | zero => intro n h; omega
  | succ f ih =>
      intro n h
      rw [natDigitsAux]
      split
      · rename_i h10
        simp [decodeDigits, digitChar_toNat h10]
      · rename_i h10
        have hdiv : n / 10 < f := by omega
        rw [decodeDigits_append, ih (n / 10) hdiv,
          digitChar_toNat (Nat.mod_lt _ (by norm_num))]
        omega

theorem decode_natDigits (n : Nat) : decodeDigits (natDigits n) = n :=
  decode_natDigitsAux (n + 1) n (by omega)

theorem natDigits_inj_iff {a b : Nat} : natDigits a = natDigits b ↔ a = b := by
  constructor
  · intro h
    have := congrArg decodeDigits h
    rwa [decode_natDigits, decode_natDigits] at this
  · intro h; rw [h]

theorem natToStr_inj {a b : Nat} (h : natToStr a = natToStr b) : a = b := by
  rw [String.ext_iff] at h
  exact natDigits_inj_iff.mp h

/-! ### C3: the classifier's `Arithmetic` catch-all -/

/-- C3 counterexample: the claim says a first token that is neither a valid
arithmetic mnemonic nor a control keyword is not classified as `Arithmetic`,
but `command_type` classifies the unrecognised token `"xyz"` as
`Arithmetic`. -/
theorem c3_counterexample :
    command_type "xyz" = CommandType.Arithmetic ∧
    "xyz" ∉ (["add", "sub", "neg", "eq", "gt", "lt", "and", "or", "not"] :
      List String) := by
  constructor
  · rfl
  · decide

/-- C3 (amended): the classifier matches the first token case-sensitively
against the eight control keywords and classifies it as `Arithmetic` exactly
when it is none of them — every unrecognised token, not only the nine
arithmetic mnemonics, falls through to `Arithmetic`. -/
theorem c3_classifier_catch_all :
    (∀ first : String,
      command_type first = CommandType.Arithmetic ↔
        first ∉ (["push", "pop", "label", "goto", "if-goto", "function",
          "return", "call"] : List String)) ∧
    command_type "push" = .Push ∧ command_type "pop" = .Pop ∧
    command_type "label" = .Label ∧ command_type "goto" = .Goto ∧
    command_type "if-goto" = .If ∧ command_type "function" = .Function ∧
    command_type "return" = .Return ∧ command_type "call" = .Call ∧
    (∀ s ∈ (["add", "sub", "neg", "eq", "gt", "lt", "and", "or", "not"] :
        List String), command_type s = .Arithmetic) := by
  refine ⟨?_, rfl, rfl, rfl, rfl, rfl, rfl, rfl, rfl, by decide⟩
  intro first
  unfold command_type
  split <;> simp_all

/-- C3 witness: the mnemonic `"add"` is classified `Arithmetic`. -/
theorem c3_witness : command_type "add" = CommandType.Arithmetic :=
  c3_classifier_catch_all.2.2.2.2.2.2.2.2.2 "add" (by decide)

/-! ### C4: the label allocator -/

/-- Distinctness of generated comparison labels: two label strings built
from stems `EQ`/`GT`/`LT`, an optional `END` marker and a decimal counter
value agree exactly when all three components agree. -/
theorem label_eq_iff (j j' : Jmp) (hj : j ≠ Jmp.jmp) (hj' : j' ≠ Jmp.jmp)
    (e e' : Bool) (k l : Nat) :
    ((if e then "END" ++ (labelStem j ++ natToStr k) else labelStem j ++ natToStr k) =
     (if e' then "END" ++ (labelStem j' ++ natToStr l) else labelStem j' ++ natToStr l))
    ↔ (e = e' ∧ j = j' ∧ k = l) := by
  cases j <;> cases j' <;> try exact absurd rfl hj
  all_goals try exact absurd rfl hj'
  all_goals
    cases e <;> cases e' <;>
      (rw [String.ext_iff]; simp [String.data_append, natToStr, labelStem, natDigits_inj_iff])

theorem labelsOf_append (a b : List Line) :
    labelsOf (a ++ b) = labelsOf a ++ labelsOf b :=
  List.filterMap_append a b _

end VMTrans

namespace VMTrans

theorem labelsOf_write_push {f seg : String} {i : Int} {ls : List Line}
    (h : write_push f seg i = some ls) : labelsOf ls = [] := by
  unfold write_push at h
  split at h <;> (try cases h) <;> rfl

theorem labelsOf_write_pop {f seg : String} {i : Int} {ls : List Line}
    (h : write_pop f seg i = some ls) : labelsOf ls = [] := by
  unfold write_pop at h
  split at h <;> (try cases h) <;> rfl

theorem labelsOf_write_push_pop {f cm seg : String} {i : Int} {ls : List Line}
    (h : write_push_pop f cm seg i = some ls) : labelsOf ls = [] := by
  unfold write_push_pop at h
  by_cases h1 : cm = "push"
  · simp only [h1, if_pos rfl] at h
    cases hp : write_push f seg i with
    | none => rw [hp] at h; cases h
    | some b =>
        rw [hp] at h
        cases h
        simp only [labelsOf, List.filterMap_cons, List.filterMap_append]
        have := labelsOf_write_push hp
        simp only [labelsOf] at this
        simp [this]
  · by_cases h2 : cm = "pop"
    · simp only [h1, h2, if_neg, if_pos rfl] at h
      cases hp : write_pop f seg i with
      | none => rw [hp] at h; cases h
      | some b =>
          rw [hp] at h
          simp at h
          cases h
          simp only [labelsOf, List.filterMap_cons, List.filterMap_append]
          have := labelsOf_write_pop hp
          simp only [labelsOf] at this
          simp [this]
    · simp only [h1, h2, if_neg, ite_false] at h
      simp at h
      cases h
      rfl

end VMTrans

namespace VMTrans

/-- Labels emitted by one `write_arithmetic` call: none for the six
non-comparison mnemonics, the freshly numbered pair for a comparison. -/
theorem write_arithmetic_labels {s : String} {c c' : Nat} {ls : List Line}
    (h : write_arithmetic s c = some (ls, c')) :
    (labelsOf ls = [] ∧ c' = c ∧ isCmp (.arith s) = false) ∨
    (∃ j : Jmp, j ≠ .jmp ∧
      labelsOf ls = [labelStem j ++ natToStr c, "END" ++ labelStem j ++ natToStr c] ∧
      c' = c + 1 ∧ isCmp (.arith s) = true) := by
  unfold write_arithmetic at h
  split at h <;> cases h
  · exact Or.inl ⟨rfl, rfl, rfl⟩
  · exact Or.inl ⟨rfl, rfl, rfl⟩
  · exact Or.inl ⟨rfl, rfl, rfl⟩
  · exact Or.inl ⟨rfl, rfl, rfl⟩
  · exact Or.inl ⟨rfl, rfl, rfl⟩
  · exact Or.inl ⟨rfl, rfl, rfl⟩
  · exact Or.inr ⟨.jeq, by decide, rfl, rfl, rfl⟩
  · exact Or.inr ⟨.jgt, by decide, rfl, rfl, rfl⟩
  · exact Or.inr ⟨.jlt, by decide, rfl, rfl, rfl⟩

end VMTrans

namespace VMTrans

/-- Label bookkeeping across a translation run: the counter never
decreases, advances by exactly the number of comparisons, and the emitted
label definitions are exactly two per comparison, each stamped with a
counter value from the run's interval, and pairwise distinct. -/
theorem translate_labels {f : String} :
    ∀ (cmds : List VmCmd) (c : Nat) (ls : List Line) (c' : Nat),
      translateCmds f cmds c = some (ls, c') →
      c' = c + cmds.countP (fun cm => isCmp cm) ∧
      (labelsOf ls).length = 2 * cmds.countP (fun cm => isCmp cm) ∧
      (∀ s ∈ labelsOf ls, ∃ (j : Jmp) (e : Bool) (k : Nat), j ≠ .jmp ∧
          c ≤ k ∧ k < c' ∧
          s = (if e then "END" ++ (labelStem j ++ natToStr k)
               else labelStem j ++ natToStr k)) ∧
      (labelsOf ls).Nodup := by
  intro cmds
  induction cmds with
  | nil =>
      intro c ls c' h
      simp [translateCmds] at h
      obtain ⟨h1, h2⟩ := h
      subst h1; subst h2
      simp [labelsOf]
  | cons cmd rest ih =>
      intro c ls c' h
      cases cmd with
      | arith s =>
          unfold translateCmds at h
          cases ha : write_arithmetic s c with
          | none => rw [ha] at h; cases h
          | some p =>
              obtain ⟨ls1, c1⟩ := p
              rw [ha] at h
              simp only at h
              cases hrest : translateCmds f rest c1 with
              | none => rw [hrest] at h; cases h
              | some q =>
                  obtain ⟨ls2, c2⟩ := q
                  rw [hrest] at h
                  simp at h
                  obtain ⟨hl, hc⟩ := h
                  subst hl; subst hc
                  obtain ⟨hcnt, hlen, hchar, hnd⟩ := ih c1 ls2 c2 hrest
                  rcases write_arithmetic_labels ha with
                    ⟨hl0, hc0, hcmp⟩ | ⟨j, hj, hl0, hc0, hcmp⟩
                  · subst hc0
                    have hcp : List.countP (fun cm => isCmp cm) (VmCmd.arith s :: rest) =
                        List.countP (fun cm => isCmp cm) rest := by
                      simp [List.countP_cons, hcmp]
                    rw [labelsOf_append, hl0, hcp]
                    simp only [List.nil_append]
                    exact ⟨by omega, by omega, hchar, hnd⟩
                  · subst hc0
                    have hcp : List.countP (fun cm => isCmp cm) (VmCmd.arith s :: rest) =
                        List.countP (fun cm => isCmp cm) rest + 1 := by
                      simp [List.countP_cons, hcmp]
                    rw [labelsOf_append, hl0, hcp]
                    refine ⟨by omega, ?_, ?_, ?_⟩
                    · simp only [List.cons_append, List.nil_append, List.length_cons]
                      omega
                    · intro t ht
                      simp only [List.cons_append, List.nil_append, List.mem_cons] at ht
                      rcases ht with h1 | h1 | h1
                      · exact ⟨j, false, c, hj, le_refl c, by omega, by simpa using h1⟩
                      · exact ⟨j, true, c, hj, le_refl c, by omega, by simpa using h1⟩
                      · obtain ⟨j', e', k, ha1, ha2, ha3, ha4⟩ := hchar t h1
                        exact ⟨j', e', k, ha1, by omega, by omega, ha4⟩
                    · simp only [List.cons_append, List.nil_append, List.nodup_cons,
                        List.mem_cons]
                      refine ⟨?_, ?_, hnd⟩
                      · push_neg
                        constructor
                        · intro heq
                          have h36 := (label_eq_iff j j hj hj false true c c).mp
                            (by simpa using heq)
                          simp at h36
                        · intro ht
                          obtain ⟨j', e', k, ha1, ha2, ha3, ha4⟩ := hchar _ ht
                          have h36 := (label_eq_iff j j' hj ha1 false e' c k).mp
                            (by simpa using ha4)
                          omega
                      · intro ht
                        obtain ⟨j', e', k, ha1, ha2, ha3, ha4⟩ := hchar _ ht
                        have h36 := (label_eq_iff j j' hj ha1 true e' c k).mp
                          (by simpa using ha4)
                        omega
      | pushpop cm seg i =>
          unfold translateCmds at h
          cases hp : write_push_pop f cm seg i with
          | none => rw [hp] at h; cases h
          | some ls1 =>
              rw [hp] at h
              simp only at h
              cases hrest : translateCmds f rest c with
              | none => rw [hrest] at h; cases h
              | some q =>
                  obtain ⟨ls2, c2⟩ := q
                  rw [hrest] at h
                  simp at h
                  obtain ⟨hl, hc⟩ := h
                  subst hl; subst hc
                  obtain ⟨hcnt, hlen, hchar, hnd⟩ := ih c ls2 c2 hrest
                  have hcp : List.countP (fun cm => isCmp cm)
                      (VmCmd.pushpop cm seg i :: rest) =
                      List.countP (fun cm => isCmp cm) rest := by
                    simp [List.countP_cons, isCmp]
                  rw [labelsOf_append, labelsOf_write_push_pop hp, hcp]
                  simp only [List.nil_append]
                  exact ⟨by omega, by omega, hchar, hnd⟩

/-- C4: a fresh context starts the label counter at 0; each comparison
translation takes the current counter value and increments it; and any run
containing N comparison commands emits exactly 2N label strings of the
forms `<PREFIX><n>` / `END<PREFIX><n>`, pairwise distinct, all stamped with
counter values below the final counter. -/
theorem c4_label_allocator :
    CodeWriter.new.label_counter = 0 ∧
    (∀ (j : Jmp) (c : Nat), (write_comparison j c).2 = c + 1) ∧
    (∀ (f : String) (cmds : List VmCmd) (ls : List Line) (c' : Nat),
      translateCmds f cmds CodeWriter.new.label_counter = some (ls, c') →
      (labelsOf ls).length = 2 * cmds.countP (fun cm => isCmp cm) ∧
      (labelsOf ls).Nodup ∧
      (∀ s ∈ labelsOf ls, ∃ (j : Jmp) (k : Nat), j ≠ .jmp ∧ k < c' ∧
        (s = labelStem j ++ natToStr k ∨
         s = "END" ++ (labelStem j ++ natToStr k)))) := by
  refine ⟨rfl, fun j c => rfl, ?_⟩
  intro f cmds ls c' h
  obtain ⟨h1, h2, h3, h4⟩ := translate_labels cmds CodeWriter.new.label_counter ls c' h
  refine ⟨h2, h4, ?_⟩
  intro s hs
  obtain ⟨j, e, k, hj, hk1, hk2, hs'⟩ := h3 s hs
  cases e
  · exact ⟨j, k, hj, hk2, Or.inl (by simpa using hs')⟩
  · exact ⟨j, k, hj, hk2, Or.inr (by simpa using hs')⟩

/-- C4 witness: a fresh-context run of `eq`, `push constant 1`, `lt`
produces exactly four pairwise-distinct labels. -/
theorem c4_witness :
    (labelsOf c4SampleLines).length =
      2 * c4SampleCmds.countP (fun cm => isCmp cm) ∧
    (labelsOf c4SampleLines).Nodup ∧
    (∀ s ∈ labelsOf c4SampleLines, ∃ (j : Jmp) (k : Nat), j ≠ .jmp ∧ k < 2 ∧
      (s = labelStem j ++ natToStr k ∨
       s = "END" ++ (labelStem j ++ natToStr k))) :=
  c4_label_allocator.2.2 "F" c4SampleCmds c4SampleLines 2 rfl

/-! ### C5: `pop constant` panics -/

/-- C5: translating `pop constant <index>` hits the
`panic!("Cannot pop to segment")` arm of `write_pop` for every index — it
never succeeds and produces output. -/
theorem c5_pop_constant_fails :
    ∀ (filename : String) (index : Int),
      write_push_pop filename "pop" "constant" index = none ∧
      write_pop filename "constant" index = none := by
  intro f i
  exact ⟨rfl, rfl⟩

/-! ### C7: `arg2` and negative indices -/

/-- C7 counterexample: the claim says an index argument that is not a
non-negative integer is rejected, but `arg2` parses `pop local -3` with
Rust's `parse::<i32>`, which accepts the negative index and returns `-3`. -/
theorem c7_counterexample :
    arg2 ["pop", "local", "-3"] = some (-3) := by
  rfl

/-- C7 (amended): for the kinds that carry an index (`push`, `pop`,
`function`, `call`), `arg2` fails when the third token is absent or not
parseable as a (signed) 32-bit integer, but a negative index such as
`pop local -3` parses successfully and is returned, not rejected. -/
theorem c7_arg2_failure_modes :
    (∀ parts : List String, parts.length ≤ 2 → arg2 parts = none) ∧
    (∀ (first seg s : String) (rest : List String),
      parse_i32 s = none → arg2 (first :: seg :: s :: rest) = none) ∧
    parse_i32 "abc" = none ∧
    parse_i32 "" = none ∧
    parse_i32 "-3" = some (-3) ∧
    arg2 ["pop", "local", "-3"] = some (-3) := by
  refine ⟨?_, ?_, rfl, rfl, rfl, rfl⟩
  · intro parts h
    match parts with
    | [] => rfl
    | [a] => cases hc : command_type a <;> simp [arg2, hc]
    | [a, b] => cases hc : command_type a <;> simp [arg2, hc]
    | a :: b :: c :: r => simp at h
  · intro first seg s rest h
    cases hc : command_type first <;> simp [arg2, hc, h]

/-- C7 witness: a missing index token and a non-numeric index token both
make `arg2` fail. -/
theorem c7_witness :
    arg2 ["push", "local"] = none ∧ arg2 ["push", "local", "abc"] = none :=
  ⟨c7_arg2_failure_modes.1 ["push", "local"] (by decide),
   c7_arg2_failure_modes.2.1 "push" "local" "abc" [] rfl⟩

/-! ### C8: static segment addressing -/

/-- C8: for every index, `push static i` / `pop static i` emit a block whose
address part is exactly the direct `@<unit>.<i>` designation followed by the
data-register move — no `A=`-destination (address-register indirection)
instruction occurs in it; the symbol is a function of the unit name and the
index alone; and the unit name is the stem of the input file name as stored
by `set_filename`. -/
theorem c8_static_direct_symbol :
    ∀ (f : String) (i : Int),
      write_push f "static" i =
        some ([.atStatic f i, .c (some .D) .regM none] ++ write_push_d) ∧
      write_pop f "static" i =
        some (write_pop_to_d ++ [.atStatic f i, .c (some .M) .regD none]) ∧
      (Line.atStatic f i).render = "@" ++ f ++ "." ++ toString i ∧
      (∀ (cp : Comp) (j : Option Jmp),
        Line.c (some .A) cp j ∉
          ([.atStatic f i, .c (some .D) .regM none] : List Line) ∧
        Line.c (some .A) cp j ∉
          ([.atStatic f i, .c (some .M) .regD none] : List Line)) ∧
      set_filename "dir/Foo.vm" = "Foo" ∧
      set_filename "Foo.vm" = "Foo" ∧
      set_filename "a/b/Prog.test.vm" = "Prog.test" := by
  intro f i
  refine ⟨rfl, rfl, by simp [Line.render], ?_, by rfl, by rfl, by rfl⟩
  intro cp j
  constructor <;> simp

/-! ### C10: `write_push_pop` silently accepts unknown command names -/

/-- C10: if `write_push_pop` is invoked with a command string that is
neither `"push"` nor `"pop"`, it succeeds and emits only the
`// vm command:...` echo comment and the trailing blank line — no assembly
instructions and no error. -/
theorem c10_unknown_command_silent :
    ∀ (f command segment : String) (index : Int),
      command ≠ "push" → command ≠ "pop" →
      write_push_pop f command segment index =
        some [.comment ("vm command:" ++ command ++ " " ++ segment ++ " " ++
                toString index),
              .blank] := by
  intro f cmd seg i h1 h2
  simp [write_push_pop, h1, h2]

/-- C10 witness: the control-flow command name `"label"` is silently
accepted at this interface. -/
theorem c10_witness :
    write_push_pop "F" "label" "LOOP" 0 =
      some [.comment ("vm command:" ++ "label" ++ " " ++ "LOOP" ++ " " ++
              toString (0 : Int)),
            .blank] :=
  c10_unknown_command_silent "F" "label" "LOOP" 0 (by decide) (by decide)

/-! ### C9: `neg` and double negation -/

/-- C9: executing the translation of `neg` replaces the top-of-stack value
`v` with its two's-complement negation `wrap (0 - v)` (the block computes
`@0`, `D=A-D`), leaves the stack pointer unchanged and touches no other
memory cell; executing two consecutive `neg` blocks (two separate textual
blocks, as emitted by two `write_arithmetic "neg"` calls) restores the
original value for every 16-bit `v`. -/
theorem c9_neg_double_negation (senv : String → Int → Nat) (m0 : Mach)
    (h1 : 16 ≤ m0.ram 0) (h2 : m0.ram 0 < 32768)
    (hv1 : -32768 ≤ m0.ram (m0.ram 0 - 1).toNat)
    (hv2 : m0.ram (m0.ram 0 - 1).toNat < 32768) :
    write_arithmetic "neg" 0 = some (negProg, 0) ∧
    translateCmds "F" [.arith "neg", .arith "neg"] 0 =
      some (negProg ++ negProg, 0) ∧
    (∃ m1, runFrom negProg senv m0 0 = some m1 ∧
      m1.ram 0 = m0.ram 0 ∧
      m1.ram (m0.ram 0 - 1).toNat = wrap (0 - m0.ram (m0.ram 0 - 1).toNat) ∧
      ∀ a : Nat, a ≠ 0 → a ≠ (m0.ram 0 - 1).toNat → m1.ram a = m0.ram a) ∧
    (∃ m2, runFrom (negProg ++ negProg) senv m0 0 = some m2 ∧
      m2.ram 0 = m0.ram 0 ∧
      m2.ram (m0.ram 0 - 1).toNat = m0.ram (m0.ram 0 - 1).toNat) := by
  have ha : wrap (m0.ram 0) = m0.ram 0 := wrap_eq_self (by omega) (by omega)
  have hb : wrap (m0.ram 0 - 1) = m0.ram 0 - 1 := wrap_eq_self (by omega) (by omega)
  have hv : wrap (m0.ram (m0.ram 0 - 1).toNat) = m0.ram (m0.ram 0 - 1).toNat :=
    wrap_eq_self hv1 hv2
  have hvv : wrap (0 - wrap (0 - m0.ram (m0.ram 0 - 1).toNat)) =
      m0.ram (m0.ram 0 - 1).toNat := by
    unfold wrap
    omega
  have hne : ¬((m0.ram 0 - 1).toNat = 0) := by omega
  have hne' : ¬((0 : Nat) = (m0.ram 0 - 1).toNat) := by omega
  have hN1 : ¬((m0.ram 0).toNat - 1 = 0) := by omega
  have hN2 : ¬((0 : Nat) = (m0.ram 0).toNat - 1) := by omega
  refine ⟨rfl, rfl, ?_, ?_⟩
  · repeat
      rw [runFrom_unfold]
      simp only [execLine, applyDest, evalComp, predefAddr, negProg, write_unary_op,
        write_push_d, List.getD, List.get?_cons_zero, List.get?_cons_succ,
        Option.getD_some, Option.getD_none, List.length_cons, List.length_append,
        List.length_nil, Function.update_apply, List.cons_append, List.nil_append,
        ha, hb, hv, hvv, hne, hne', wrap_wrap, wrap_zero, Int.toNat_zero,
        Int.toNat_ofNat, if_true, if_false, ite_true, ite_false, Nat.reduceAdd,
        Nat.reduceLT, Nat.reduceLeDiff, Int.reduceNeg, Int.reduceToNat,
        decide_True, decide_False, Nat.cast_ofNat, Nat.cast_zero, Nat.cast_one,
        Int.Nat.cast_ofNat_Int, sub_add_cancel]
    refine ⟨_, rfl, ?_, ?_, ?_⟩
    · simp [Function.update_apply, hne, hne', hN1, hN2]
    · simp [Function.update_apply, hne, hne', hN1, hN2]
    · intro a ha0 ha1
      have haN : ¬(a = (m0.ram 0).toNat - 1) := by omega
      simp [Function.update_apply, ha0, ha1, haN]
  · repeat
      rw [runFrom_unfold]
      simp only [execLine, applyDest, evalComp, predefAddr, negProg, write_unary_op,
        write_push_d, List.getD, List.get?_cons_zero, List.get?_cons_succ,
        Option.getD_some, Option.getD_none, List.length_cons, List.length_append,
        List.length_nil, Function.update_apply, List.cons_append, List.nil_append,
        ha, hb, hv, hvv, hne, hne', wrap_wrap, wrap_zero, Int.toNat_zero,
        Int.toNat_ofNat, if_true, if_false, ite_true, ite_false, Nat.reduceAdd,
        Nat.reduceLT, Nat.reduceLeDiff, Int.reduceNeg, Int.reduceToNat,
        decide_True, decide_False, Nat.cast_ofNat, Nat.cast_zero, Nat.cast_one,
        Int.Nat.cast_ofNat_Int, sub_add_cancel]
    refine ⟨_, rfl, ?_, ?_⟩
    · simp [Function.update_apply, hne, hne', hN1, hN2]
    · simp [Function.update_apply, hne, hne', hN1, hN2, hv]

/-- C9 witness: on a concrete machine (`SP` = 256, stack top 7), two `neg`
blocks leave `SP` and the top value unchanged. -/
theorem c9_witness :
    ∃ m2, runFrom (negProg ++ negProg) (fun _ _ => 16) c9Mach 0 = some m2 ∧
      m2.ram 0 = c9Mach.ram 0 ∧
      m2.ram (c9Mach.ram 0 - 1).toNat = c9Mach.ram (c9Mach.ram 0 - 1).toNat :=
  (c9_neg_double_negation (fun _ _ => 16) c9Mach (by decide) (by decide)
    (by decide) (by decide)).2.2.2

/-! ### C1: `sub` is left-minus-right -/

set_option maxRecDepth 8000 in
/-- C1: the translation of `push constant 5`, `push constant 3`, `sub`
computes left-minus-right: from any start state with a well-formed stack
pointer, execution leaves `5 - 3 = 2` (not `-2`) on top of the stack.  The
first pop (stack top, `3`) goes to scratch `R14` as right-hand operand, the
second pop (`5`) to `R13` as left-hand operand, and the subtraction is
`D=D-M` with `D = R13`, `M = R14`. -/
theorem c1_sub_left_minus_right (f : String) (senv : String → Int → Nat) (m0 : Mach)
    (h1 : 16 ≤ m0.ram 0) (h2 : m0.ram 0 + 2 < 32768) :
    translateCmds f [.pushpop "push" "constant" 5, .pushpop "push" "constant" 3,
        .arith "sub"] 0 = some (c1Prog f, 0) ∧
    ∃ m', runFrom (c1Prog f) senv m0 0 = some m' ∧
      m'.ram 0 = m0.ram 0 + 1 ∧
      m'.ram (m'.ram 0 - 1).toNat = 2 ∧
      m'.ram (m0.ram 0).toNat = 2 := by
  have ha : wrap (m0.ram 0) = m0.ram 0 := wrap_eq_self (by omega) (by omega)
  have hsp1 : wrap (m0.ram 0 + 1) = m0.ram 0 + 1 := wrap_eq_self (by omega) (by omega)
  have hsp2 : wrap (m0.ram 0 + 1 + 1) = m0.ram 0 + 1 + 1 := by
    rw [show m0.ram 0 + 1 + 1 = m0.ram 0 + 2 by ring]
    exact wrap_eq_self (by omega) (by omega)
  have he1 : wrap (m0.ram 0 + 1 + 1 - 1) = m0.ram 0 + 1 := by
    rw [show m0.ram 0 + 1 + 1 - 1 = m0.ram 0 + 1 by ring]
    exact hsp1
  have he2 : wrap (m0.ram 0 + 1 - 1) = m0.ram 0 := by
    rw [show m0.ram 0 + 1 - 1 = m0.ram 0 by ring]
    exact ha
  have hw5 : wrap 5 = 5 := by decide
  have hw3 : wrap 3 = 3 := by decide
  have hw2 : wrap 2 = 2 := by decide
  have p1 : ¬((m0.ram 0).toNat = 0) := by omega
  have p2 : ¬((0:Nat) = (m0.ram 0).toNat) := by omega
  have p3 : ¬((m0.ram 0).toNat = 13) := by omega
  have p4 : ¬((13:Nat) = (m0.ram 0).toNat) := by omega
  have p5 : ¬((m0.ram 0).toNat = 14) := by omega
  have p6 : ¬((14:Nat) = (m0.ram 0).toNat) := by omega
  have q1 : ¬((m0.ram 0 + 1).toNat = 0) := by omega
  have q2 : ¬((0:Nat) = (m0.ram 0 + 1).toNat) := by omega
  have q3 : ¬((m0.ram 0 + 1).toNat = 13) := by omega
  have q4 : ¬((13:Nat) = (m0.ram 0 + 1).toNat) := by omega
  have q5 : ¬((m0.ram 0 + 1).toNat = 14) := by omega
  have q6 : ¬((14:Nat) = (m0.ram 0 + 1).toNat) := by omega
  have r1 : ¬((m0.ram 0).toNat = (m0.ram 0 + 1).toNat) := by omega
  have r2 : ¬((m0.ram 0 + 1).toNat = (m0.ram 0).toNat) := by omega
  refine ⟨rfl, ?_⟩
  repeat
    rw [runFrom_unfold]
    simp only [execLine, applyDest, evalComp, predefAddr, c1Prog, pushConstBlock,
      subBlock, write_push_d, write_binary_op, Option.getD_some, Option.getD_none,
      List.getD, List.get?_cons_zero, List.get?_cons_succ,
      List.length_cons, List.length_append, List.length_nil,
      Function.update_apply, List.cons_append, List.nil_append,
      ha, hsp1, hsp2, he1, he2, hw5, hw3, hw2,
      p1, p2, p3, p4, p5, p6, q1, q2, q3, q4, q5, q6, r1, r2,
      wrap_wrap, wrap_zero, Int.toNat_zero, Int.toNat_ofNat,
      if_true, if_false, ite_true, ite_false, Nat.reduceAdd, Nat.reduceLT,
      Nat.reduceLeDiff, Nat.reduceEqDiff, Int.reduceNeg, Int.reduceToNat,
      Int.reduceSub, Int.reduceAdd, decide_True, decide_False, Nat.cast_ofNat,
      Nat.cast_zero, Nat.cast_one, Int.Nat.cast_ofNat_Int, sub_add_cancel]
  refine ⟨_, rfl, ?_, ?_, ?_⟩
  · simp [Function.update_apply]
  · simp [Function.update_apply, p1, p2, p3, p4, p5, p6, q1, q2, r1, r2]
  · simp [Function.update_apply, p1, p2, p3, p4, p5, p6, q1, q2, r1, r2]

/-- C1 witness: on the concrete machine with `SP` = 256, the program leaves
2 on top of the stack and `SP` = 257. -/
theorem c1_witness :
    ∃ m', runFrom (c1Prog "F") (fun _ _ => 16) c9Mach 0 = some m' ∧
      m'.ram 0 = c9Mach.ram 0 + 1 ∧
      m'.ram (m'.ram 0 - 1).toNat = 2 ∧
      m'.ram (c9Mach.ram 0).toNat = 2 :=
  (c1_sub_left_minus_right "F" (fun _ _ => 16) c9Mach (by decide) (by decide)).2

/-! ### C2: comparison lowering -/

set_option maxRecDepth 16000 in
set_option maxHeartbeats 3000000 in
/-- C2: for each comparison (`eq`, `gt`, `lt`) the translation pops right
(`b`, into `R14`) then left (`a`, into `R13`), computes `a - b`, and
branches on the corresponding relational test: when it holds, the true
branch pushes the sentinel `-1`; otherwise the fall-through pushes `0` and
jumps unconditionally to the end label.  In particular `push constant 0`,
`push constant 0`, `eq` leaves `-1`, and making the operands differ leaves
`0`. -/
theorem c2_comparison_branches (f : String) (senv : String → Int → Nat) (m0 : Mach) (a b : Int)
    (ha0 : 0 ≤ a) (ha1 : a < 32768) (hb0 : 0 ≤ b) (hb1 : b < 32768)
    (h1 : 16 ≤ m0.ram 0) (h2 : m0.ram 0 + 2 < 32768) :
    write_arithmetic "eq" 0 = some (cmpBlock "eq" .jeq, 1) ∧
    write_arithmetic "gt" 0 = some (cmpBlock "gt" .jgt, 1) ∧
    write_arithmetic "lt" 0 = some (cmpBlock "lt" .jlt, 1) ∧
    (∃ m', runFrom (c2Prog f a b "eq" .jeq) senv m0 0 = some m' ∧
      m'.ram 0 = m0.ram 0 + 1 ∧
      m'.ram (m0.ram 0).toNat = (if a = b then -1 else 0)) ∧
    (∃ m', runFrom (c2Prog f a b "gt" .jgt) senv m0 0 = some m' ∧
      m'.ram 0 = m0.ram 0 + 1 ∧
      m'.ram (m0.ram 0).toNat = (if b < a then -1 else 0)) ∧
    (∃ m', runFrom (c2Prog f a b "lt" .jlt) senv m0 0 = some m' ∧
      m'.ram 0 = m0.ram 0 + 1 ∧
      m'.ram (m0.ram 0).toNat = (if a < b then -1 else 0)) := by
  have ha : wrap (m0.ram 0) = m0.ram 0 := wrap_eq_self (by omega) (by omega)
  have hsp1 : wrap (m0.ram 0 + 1) = m0.ram 0 + 1 := wrap_eq_self (by omega) (by omega)
  have hsp2 : wrap (m0.ram 0 + 1 + 1) = m0.ram 0 + 1 + 1 := by
    rw [show m0.ram 0 + 1 + 1 = m0.ram 0 + 2 by ring]
    exact wrap_eq_self (by omega) (by omega)
  have he1 : wrap (m0.ram 0 + 1 + 1 - 1) = m0.ram 0 + 1 := by
    rw [show m0.ram 0 + 1 + 1 - 1 = m0.ram 0 + 1 by ring]
    exact hsp1
  have he2 : wrap (m0.ram 0 + 1 - 1) = m0.ram 0 := by
    rw [show m0.ram 0 + 1 - 1 = m0.ram 0 by ring]
    exact ha
  have hwa : wrap a = a := wrap_eq_self (by omega) (by omega)
  have hwb : wrap b = b := wrap_eq_self (by omega) (by omega)
  have hd : wrap (a - b) = a - b := wrap_eq_self (by omega) (by omega)
  have hN0 : natToStr 0 = "0" := rfl
  have p1 : ¬((m0.ram 0).toNat = 0) := by omega
  have p2 : ¬((0:Nat) = (m0.ram 0).toNat) := by omega
  have p3 : ¬((m0.ram 0).toNat = 13) := by omega
  have p4 : ¬((13:Nat) = (m0.ram 0).toNat) := by omega
  have p5 : ¬((m0.ram 0).toNat = 14) := by omega
  have p6 : ¬((14:Nat) = (m0.ram 0).toNat) := by omega
  have q1 : ¬((m0.ram 0 + 1).toNat = 0) := by omega
  have q2 : ¬((0:Nat) = (m0.ram 0 + 1).toNat) := by omega
  have q3 : ¬((m0.ram 0 + 1).toNat = 13) := by omega
  have q4 : ¬((13:Nat) = (m0.ram 0 + 1).toNat) := by omega
  have q5 : ¬((m0.ram 0 + 1).toNat = 14) := by omega
  have q6 : ¬((14:Nat) = (m0.ram 0 + 1).toNat) := by omega
  have r1 : ¬((m0.ram 0).toNat = (m0.ram 0 + 1).toNat) := by omega
  have r2 : ¬((m0.ram 0 + 1).toNat = (m0.ram 0).toNat) := by omega
  refine ⟨rfl, rfl, rfl, ?_, ?_, ?_⟩
  · by_cases hab : a = b
    · have hjt : ((a - b) == (0:Int)) = true := by simp [hab]
      repeat
        rw [runFrom_unfold]
        simp only [execLine, applyDest, evalComp, predefAddr, jumpTaken, c2Prog, pushConstBlock,
          cmpBlock, write_comparison, labelStem, write_push_d, findLabel,
          List.findIdx?_cons, List.findIdx?_nil, Option.getD_some, Option.getD_none,
          List.getD, List.get?_cons_zero, List.get?_cons_succ,
          List.length_cons, List.length_append, List.length_nil,
          Function.update_apply, List.cons_append, List.nil_append,
          ha, hsp1, hsp2, he1, he2, hwa, hwb, hd, hN0, hjt,
          p1, p2, p3, p4, p5, p6, q1, q2, q3, q4, q5, q6, r1, r2,
          wrap_wrap, wrap_zero, Int.toNat_zero, Int.toNat_ofNat, Int.toNat_natCast,
          String.reduceAppend, String.reduceBEq, String.reduceMk,
          if_true, if_false, ite_true, ite_false, Nat.reduceAdd, Nat.reduceLT,
          Nat.reduceLeDiff, Nat.reduceEqDiff, Int.reduceNeg, Int.reduceToNat,
          Int.reduceSub, Int.reduceAdd, decide_True, decide_False, Nat.cast_ofNat,
          Nat.cast_zero, Nat.cast_one, Int.Nat.cast_ofNat_Int, sub_add_cancel,
          Bool.false_eq_true, eq_self_iff_true, Option.map_some, Option.map_none]
      refine ⟨_, rfl, ?_, ?_⟩
      · simp [Function.update_apply, p1, p2, p3, p4, p5, p6, q1, q2, r1, r2]
      · simp [Function.update_apply, p1, p2, p3, p4, p5, p6, q1, q2, r1, r2, hab]
    · have hjt : ((a - b) == (0:Int)) = false := by simp [sub_eq_zero, hab]
      repeat
        rw [runFrom_unfold]
        simp only [execLine, applyDest, evalComp, predefAddr, jumpTaken, c2Prog, pushConstBlock,
          cmpBlock, write_comparison, labelStem, write_push_d, findLabel,
          List.findIdx?_cons, List.findIdx?_nil, Option.getD_some, Option.getD_none,
          List.getD, List.get?_cons_zero, List.get?_cons_succ,
          List.length_cons, List.length_append, List.length_nil,
          Function.update_apply, List.cons_append, List.nil_append,
          ha, hsp1, hsp2, he1, he2, hwa, hwb, hd, hN0, hjt,
          p1, p2, p3, p4, p5, p6, q1, q2, q3, q4, q5, q6, r1, r2,
          wrap_wrap, wrap_zero, Int.toNat_zero, Int.toNat_ofNat, Int.toNat_natCast,
          String.reduceAppend, String.reduceBEq, String.reduceMk,
          if_true, if_false, ite_true, ite_false, Nat.reduceAdd, Nat.reduceLT,
          Nat.reduceLeDiff, Nat.reduceEqDiff, Int.reduceNeg, Int.reduceToNat,
          Int.reduceSub, Int.reduceAdd, decide_True, decide_False, Nat.cast_ofNat,
          Nat.cast_zero, Nat.cast_one, Int.Nat.cast_ofNat_Int, sub_add_cancel,
          Bool.false_eq_true, eq_self_iff_true, Option.map_some, Option.map_none]
      refine ⟨_, rfl, ?_, ?_⟩
      · simp [Function.update_apply, p1, p2, p3, p4, p5, p6, q1, q2, r1, r2]
      · simp [Function.update_apply, p1, p2, p3, p4, p5, p6, q1, q2, r1, r2, hab]
  · by_cases hab : b < a
    · have hjt : (decide ((0:Int) < a - b)) = true := by simp; omega
      repeat
        rw [runFrom_unfold]
        simp only [execLine, applyDest, evalComp, predefAddr, jumpTaken, c2Prog, pushConstBlock,
          cmpBlock, write_comparison, labelStem, write_push_d, findLabel,
          List.findIdx?_cons, List.findIdx?_nil, Option.getD_some, Option.getD_none,
          List.getD, List.get?_cons_zero, List.get?_cons_succ,
          List.length_cons, List.length_append, List.length_nil,
          Function.update_apply, List.cons_append, List.nil_append,
          ha, hsp1, hsp2, he1, he2, hwa, hwb, hd, hN0, hjt,
          p1, p2, p3, p4, p5, p6, q1, q2, q3, q4, q5, q6, r1, r2,
          wrap_wrap, wrap_zero, Int.toNat_zero, Int.toNat_ofNat, Int.toNat_natCast,
          String.reduceAppend, String.reduceBEq, String.reduceMk,
          if_true, if_false, ite_true, ite_false, Nat.reduceAdd, Nat.reduceLT,
          Nat.reduceLeDiff, Nat.reduceEqDiff, Int.reduceNeg, Int.reduceToNat,
          Int.reduceSub, Int.reduceAdd, decide_True, decide_False, Nat.cast_ofNat,
          Nat.cast_zero, Nat.cast_one, Int.Nat.cast_ofNat_Int, sub_add_cancel,
          Bool.false_eq_true, eq_self_iff_true, Option.map_some, Option.map_none]
      refine ⟨_, rfl, ?_, ?_⟩
      · simp [Function.update_apply, p1, p2, p3, p4, p5, p6, q1, q2, r1, r2]
      · simp [Function.update_apply, p1, p2, p3, p4, p5, p6, q1, q2, r1, r2, hab]
    · have hjt : (decide ((0:Int) < a - b)) = false := by simp; omega
      repeat
        rw [runFrom_unfold]
        simp only [execLine, applyDest, evalComp, predefAddr, jumpTaken, c2Prog, pushConstBlock,
          cmpBlock, write_comparison, labelStem, write_push_d, findLabel,
          List.findIdx?_cons, List.findIdx?_nil, Option.getD_some, Option.getD_none,
          List.getD, List.get?_cons_zero, List.get?_cons_succ,
          List.length_cons, List.length_append, List.length_nil,
          Function.update_apply, List.cons_append, List.nil_append,
          ha, hsp1, hsp2, he1, he2, hwa, hwb, hd, hN0, hjt,
          p1, p2, p3, p4, p5, p6, q1, q2, q3, q4, q5, q6, r1, r2,
          wrap_wrap, wrap_zero, Int.toNat_zero, Int.toNat_ofNat, Int.toNat_natCast,
          String.reduceAppend, String.reduceBEq, String.reduceMk,
          if_true, if_false, ite_true, ite_false, Nat.reduceAdd, Nat.reduceLT,
          Nat.reduceLeDiff, Nat.reduceEqDiff, Int.reduceNeg, Int.reduceToNat,
          Int.reduceSub, Int.reduceAdd, decide_True, decide_False, Nat.cast_ofNat,
          Nat.cast_zero, Nat.cast_one, Int.Nat.cast_ofNat_Int, sub_add_cancel,
          Bool.false_eq_true, eq_self_iff_true, Option.map_some, Option.map_none]
      refine ⟨_, rfl, ?_, ?_⟩
      · simp [Function.update_apply, p1, p2, p3, p4, p5, p6, q1, q2, r1, r2]
      · simp [Function.update_apply, p1, p2, p3, p4, p5, p6, q1, q2, r1, r2, hab, if_neg hab]
  · by_cases hab : a < b
    · have hjt : (decide (a - b < (0:Int))) = true := by simp; omega
      repeat
        rw [runFrom_unfold]
        simp only [execLine, applyDest, evalComp, predefAddr, jumpTaken, c2Prog, pushConstBlock,
          cmpBlock, write_comparison, labelStem, write_push_d, findLabel,
          List.findIdx?_cons, List.findIdx?_nil, Option.getD_some, Option.getD_none,
          List.getD, List.get?_cons_zero, List.get?_cons_succ,
          List.length_cons, List.length_append, List.length_nil,
          Function.update_apply, List.cons_append, List.nil_append,
          ha, hsp1, hsp2, he1, he2, hwa, hwb, hd, hN0, hjt,
          p1, p2, p3, p4, p5, p6, q1, q2, q3, q4, q5, q6, r1, r2,
          wrap_wrap, wrap_zero, Int.toNat_zero, Int.toNat_ofNat, Int.toNat_natCast,
          String.reduceAppend, String.reduceBEq, String.reduceMk,
          if_true, if_false, ite_true, ite_false, Nat.reduceAdd, Nat.reduceLT,
          Nat.reduceLeDiff, Nat.reduceEqDiff, Int.reduceNeg, Int.reduceToNat,
          Int.reduceSub, Int.reduceAdd, decide_True, decide_False, Nat.cast_ofNat,
          Nat.cast_zero, Nat.cast_one, Int.Nat.cast_ofNat_Int, sub_add_cancel,
          Bool.false_eq_true, eq_self_iff_true, Option.map_some, Option.map_none]
      refine ⟨_, rfl, ?_, ?_⟩
      · simp [Function.update_apply, p1, p2, p3, p4, p5, p6, q1, q2, r1, r2]
      · simp [Function.update_apply, p1, p2, p3, p4, p5, p6, q1, q2, r1, r2, hab]
    · have hjt : (decide (a - b < (0:Int))) = false := by simp; omega
      repeat
        rw [runFrom_unfold]
        simp only [execLine, applyDest, evalComp, predefAddr, jumpTaken, c2Prog, pushConstBlock,
          cmpBlock, write_comparison, labelStem, write_push_d, findLabel,
          List.findIdx?_cons, List.findIdx?_nil, Option.getD_some, Option.getD_none,
          List.getD, List.get?_cons_zero, List.get?_cons_succ,
          List.length_cons, List.length_append, List.length_nil,
          Function.update_apply, List.cons_append, List.nil_append,
          ha, hsp1, hsp2, he1, he2, hwa, hwb, hd, hN0, hjt,
          p1, p2, p3, p4, p5, p6, q1, q2, q3, q4, q5, q6, r1, r2,
          wrap_wrap, wrap_zero, Int.toNat_zero, Int.toNat_ofNat, Int.toNat_natCast,
          String.reduceAppend, String.reduceBEq, String.reduceMk,
          if_true, if_false, ite_true, ite_false, Nat.reduceAdd, Nat.reduceLT,
          Nat.reduceLeDiff, Nat.reduceEqDiff, Int.reduceNeg, Int.reduceToNat,
          Int.reduceSub, Int.reduceAdd, decide_True, decide_False, Nat.cast_ofNat,
          Nat.cast_zero, Nat.cast_one, Int.Nat.cast_ofNat_Int, sub_add_cancel,
          Bool.false_eq_true, eq_self_iff_true, Option.map_some, Option.map_none]
      refine ⟨_, rfl, ?_, ?_⟩
      · simp [Function.update_apply, p1, p2, p3, p4, p5, p6, q1, q2, r1, r2]
      · simp [Function.update_apply, p1, p2, p3, p4, p5, p6, q1, q2, r1, r2, hab, if_neg hab]

/-- C2 witness: `0 eq 0` pushes `-1`; `1 eq 0` pushes `0`. -/
theorem c2_witness :
    (∃ m', runFrom (c2Prog "F" 0 0 "eq" .jeq) (fun _ _ => 16) c9Mach 0 = some m' ∧
      m'.ram 0 = c9Mach.ram 0 + 1 ∧
      m'.ram (c9Mach.ram 0).toNat = (if (0:Int) = 0 then -1 else 0)) ∧
    (∃ m', runFrom (c2Prog "F" 1 0 "eq" .jeq) (fun _ _ => 16) c9Mach 0 = some m' ∧
      m'.ram 0 = c9Mach.ram 0 + 1 ∧
      m'.ram (c9Mach.ram 0).toNat = (if (1:Int) = 0 then -1 else 0)) :=
  ⟨(c2_comparison_branches "F" (fun _ _ => 16) c9Mach 0 0 (by norm_num) (by norm_num)
      (by norm_num) (by norm_num) (by decide) (by decide)).2.2.2.1,
   (c2_comparison_branches "F" (fun _ _ => 16) c9Mach 1 0 (by norm_num) (by norm_num)
      (by norm_num) (by norm_num) (by decide) (by decide)).2.2.2.1⟩

/-! ### C6: push/pop pairs -/

set_option maxRecDepth 16000 in
set_option maxHeartbeats 4000000 in
/-- C6 (amended): for every valid `(segment, index)` push/pop pair except
`pop constant`, with the standard memory-layout preconditions, a push
immediately followed by a pop of the same segment and index restores the
stack pointer exactly to its pre-push value (depth-neutrality), restores
the addressed cell, and is a net no-op on every memory cell other than the
scratch register `R13` and the stack cell at the pre-push top-of-stack
address (which is left holding the transferred value). -/
theorem c6_push_pop_pair (f : String) (senv : String → Int → Nat) (m0 : Mach)
    (i : Int)
    (h1 : 16 ≤ m0.ram 0) (h2 : m0.ram 0 + 1 < 32768)
    (hi0 : 0 ≤ i) (hi1 : i < 32763)
    (hL1 : 16 ≤ m0.ram 1 + i) (hL2 : m0.ram 1 + i < 32768) (hL0 : 0 ≤ m0.ram 1)
    (hLv1 : -32768 ≤ m0.ram (m0.ram 1 + i).toNat)
    (hLv2 : m0.ram (m0.ram 1 + i).toNat < 32768)
    (hA1 : 16 ≤ m0.ram 2 + i) (hA2 : m0.ram 2 + i < 32768) (hA0 : 0 ≤ m0.ram 2)
    (hAv1 : -32768 ≤ m0.ram (m0.ram 2 + i).toNat)
    (hAv2 : m0.ram (m0.ram 2 + i).toNat < 32768)
    (hTh1 : 16 ≤ m0.ram 3 + i) (hTh2 : m0.ram 3 + i < 32768) (hTh0 : 0 ≤ m0.ram 3)
    (hThv1 : -32768 ≤ m0.ram (m0.ram 3 + i).toNat)
    (hThv2 : m0.ram (m0.ram 3 + i).toNat < 32768)
    (hTt1 : 16 ≤ m0.ram 4 + i) (hTt2 : m0.ram 4 + i < 32768) (hTt0 : 0 ≤ m0.ram 4)
    (hTtv1 : -32768 ≤ m0.ram (m0.ram 4 + i).toNat)
    (hTtv2 : m0.ram (m0.ram 4 + i).toNat < 32768)
    (hTev1 : -32768 ≤ m0.ram (5 + i).toNat) (hTev2 : m0.ram (5 + i).toNat < 32768)
    (hPv1 : -32768 ≤ m0.ram (3 + i).toNat) (hPv2 : m0.ram (3 + i).toNat < 32768)
    (hS1 : 16 ≤ senv f i) (hS2 : senv f i < 32768)
    (hSv1 : -32768 ≤ m0.ram (senv f i)) (hSv2 : m0.ram (senv f i) < 32768) :
    (∃ bp pp, write_push_pop f "push" "local" i = some bp ∧
      write_push_pop f "pop" "local" i = some pp ∧
      pushPopPair f "local" i = bp ++ pp) ∧
    (∃ m', runFrom (pushPopPair f "local" i) senv m0 0 = some m' ∧
      m'.ram 0 = m0.ram 0 ∧
      m'.ram (m0.ram 1 + i).toNat = m0.ram (m0.ram 1 + i).toNat ∧
      ∀ a : Nat, a ≠ 13 → a ≠ (m0.ram 0).toNat → m'.ram a = m0.ram a) ∧
    (∃ bp pp, write_push_pop f "push" "argument" i = some bp ∧
      write_push_pop f "pop" "argument" i = some pp ∧
      pushPopPair f "argument" i = bp ++ pp) ∧
    (∃ m', runFrom (pushPopPair f "argument" i) senv m0 0 = some m' ∧
      m'.ram 0 = m0.ram 0 ∧
      m'.ram (m0.ram 2 + i).toNat = m0.ram (m0.ram 2 + i).toNat ∧
      ∀ a : Nat, a ≠ 13 → a ≠ (m0.ram 0).toNat → m'.ram a = m0.ram a) ∧
    (∃ bp pp, write_push_pop f "push" "this" i = some bp ∧
      write_push_pop f "pop" "this" i = some pp ∧
      pushPopPair f "this" i = bp ++ pp) ∧
    (∃ m', runFrom (pushPopPair f "this" i) senv m0 0 = some m' ∧
      m'.ram 0 = m0.ram 0 ∧
      m'.ram (m0.ram 3 + i).toNat = m0.ram (m0.ram 3 + i).toNat ∧
      ∀ a : Nat, a ≠ 13 → a ≠ (m0.ram 0).toNat → m'.ram a = m0.ram a) ∧
    (∃ bp pp, write_push_pop f "push" "that" i = some bp ∧
      write_push_pop f "pop" "that" i = some pp ∧
      pushPopPair f "that" i = bp ++ pp) ∧
    (∃ m', runFrom (pushPopPair f "that" i) senv m0 0 = some m' ∧
      m'.ram 0 = m0.ram 0 ∧
      m'.ram (m0.ram 4 + i).toNat = m0.ram (m0.ram 4 + i).toNat ∧
      ∀ a : Nat, a ≠ 13 → a ≠ (m0.ram 0).toNat → m'.ram a = m0.ram a) ∧
    (∃ bp pp, write_push_pop f "push" "temp" i = some bp ∧
      write_push_pop f "pop" "temp" i = some pp ∧
      pushPopPair f "temp" i = bp ++ pp) ∧
    (∃ m', runFrom (pushPopPair f "temp" i) senv m0 0 = some m' ∧
      m'.ram 0 = m0.ram 0 ∧
      m'.ram ((5:Int) + i).toNat = m0.ram ((5:Int) + i).toNat ∧
      ∀ a : Nat, a ≠ 13 → a ≠ (m0.ram 0).toNat → m'.ram a = m0.ram a) ∧
    (∃ bp pp, write_push_pop f "push" "pointer" i = some bp ∧
      write_push_pop f "pop" "pointer" i = some pp ∧
      pushPopPair f "pointer" i = bp ++ pp) ∧
    (∃ m', runFrom (pushPopPair f "pointer" i) senv m0 0 = some m' ∧
      m'.ram 0 = m0.ram 0 ∧
      m'.ram ((3:Int) + i).toNat = m0.ram ((3:Int) + i).toNat ∧
      ∀ a : Nat, a ≠ 13 → a ≠ (m0.ram 0).toNat → m'.ram a = m0.ram a) ∧
    (∃ bp pp, write_push_pop f "push" "static" i = some bp ∧
      write_push_pop f "pop" "static" i = some pp ∧
      pushPopPair f "static" i = bp ++ pp) ∧
    (∃ m', runFrom (pushPopPair f "static" i) senv m0 0 = some m' ∧
      m'.ram 0 = m0.ram 0 ∧
      m'.ram (senv f i) = m0.ram (senv f i) ∧
      ∀ a : Nat, a ≠ 13 → a ≠ (m0.ram 0).toNat → m'.ram a = m0.ram a) := by
  have ha : wrap (m0.ram 0) = m0.ram 0 := wrap_eq_self (by omega) (by omega)
  have hsp1 : wrap (m0.ram 0 + 1) = m0.ram 0 + 1 := wrap_eq_self (by omega) (by omega)
  have he2 : wrap (m0.ram 0 + 1 - 1) = m0.ram 0 := by
    rw [show m0.ram 0 + 1 - 1 = m0.ram 0 by ring]
    exact ha
  have p1 : ¬((m0.ram 0).toNat = 0) := by omega
  have p2 : ¬((0:Nat) = (m0.ram 0).toNat) := by omega
  have p3 : ¬((m0.ram 0).toNat = 13) := by omega
  have p4 : ¬((13:Nat) = (m0.ram 0).toNat) := by omega
  refine ⟨⟨_, _, rfl, rfl, rfl⟩, ?_, ⟨_, _, rfl, rfl, rfl⟩, ?_, ⟨_, _, rfl, rfl, rfl⟩, ?_, ⟨_, _, rfl, rfl, rfl⟩, ?_, ⟨_, _, rfl, rfl, rfl⟩, ?_, ⟨_, _, rfl, rfl, rfl⟩, ?_, ⟨_, _, rfl, rfl, rfl⟩, ?_⟩
  · have hbase : wrap (m0.ram 1) = m0.ram 1 := wrap_eq_self (by omega) (by omega)
    have hwi : wrap i = i := wrap_eq_self (by omega) (by omega)
    have haddr : wrap (m0.ram 1 + i) = m0.ram 1 + i := wrap_eq_self (by omega) (by omega)
    have hv : wrap (m0.ram (m0.ram 1 + i).toNat) = m0.ram (m0.ram 1 + i).toNat :=
      wrap_eq_self hLv1 hLv2
    have s1 : ¬((0:Nat) = (m0.ram 1 + i).toNat) := by omega
    have s2 : ¬((m0.ram 1 + i).toNat = 0) := by omega
    have s3 : ¬((1:Nat) = (m0.ram 0).toNat) := by omega
    repeat
      rw [runFrom_unfold]
      simp only [execLine, applyDest, evalComp, predefAddr, pushPopPair,
        write_push_pop, write_push, write_pop, SegmentSymbol.from_str,
        SegmentSymbol.symbol, write_push_d, write_pop_to_d, pop_store_tail,
        Option.getD_some, Option.getD_none, String.reduceEq, String.reduceAppend,
        List.getD, List.get?_cons_zero, List.get?_cons_succ,
        List.length_cons, List.length_append, List.length_nil,
        Function.update_apply, List.cons_append, List.nil_append,
        ha, hsp1, he2, hbase, hwi, haddr, hv, s1, s2, s3, p1, p2, p3, p4,
        wrap_wrap, wrap_zero, Int.toNat_zero, Int.toNat_ofNat, Int.toNat_natCast,
        if_true, if_false, ite_true, ite_false, Nat.reduceAdd, Nat.reduceLT,
        Nat.reduceLeDiff, Nat.reduceEqDiff, Int.reduceNeg, Int.reduceToNat,
        Int.reduceSub, Int.reduceAdd, decide_True, decide_False, Nat.cast_ofNat,
        Nat.cast_zero, Nat.cast_one, Int.Nat.cast_ofNat_Int, sub_add_cancel,
        Bool.false_eq_true, eq_self_iff_true]
    refine ⟨_, rfl, ?_, ?_, ?_⟩
    · simp [Function.update_apply, hbase, hwi, haddr, hv, s1, s2, s3, p1, p2, p3, p4]
    · simp [Function.update_apply, hbase, hwi, haddr, hv, s1, s2, s3, p1, p2, p3, p4]
    · intro a h13 hsp
      simp only [Function.update_apply]
      split_ifs <;> simp_all
  · have hbase : wrap (m0.ram 2) = m0.ram 2 := wrap_eq_self (by omega) (by omega)
    have hwi : wrap i = i := wrap_eq_self (by omega) (by omega)
    have haddr : wrap (m0.ram 2 + i) = m0.ram 2 + i := wrap_eq_self (by omega) (by omega)
    have hv : wrap (m0.ram (m0.ram 2 + i).toNat) = m0.ram (m0.ram 2 + i).toNat :=
      wrap_eq_self hAv1 hAv2
    have s1 : ¬((0:Nat) = (m0.ram 2 + i).toNat) := by omega
    have s2 : ¬((m0.ram 2 + i).toNat = 0) := by omega
    have s3 : ¬((2:Nat) = (m0.ram 0).toNat) := by omega
    repeat
      rw [runFrom_unfold]
      simp only [execLine, applyDest, evalComp, predefAddr, pushPopPair,
        write_push_pop, write_push, write_pop, SegmentSymbol.from_str,
        SegmentSymbol.symbol, write_push_d, write_pop_to_d, pop_store_tail,
        Option.getD_some, Option.getD_none, String.reduceEq, String.reduceAppend,
        List.getD, List.get?_cons_zero, List.get?_cons_succ,
        List.length_cons, List.length_append, List.length_nil,
        Function.update_apply, List.cons_append, List.nil_append,
        ha, hsp1, he2, hbase, hwi, haddr, hv, s1, s2, s3, p1, p2, p3, p4,
        wrap_wrap, wrap_zero, Int.toNat_zero, Int.toNat_ofNat, Int.toNat_natCast,
        if_true, if_false, ite_true, ite_false, Nat.reduceAdd, Nat.reduceLT,
        Nat.reduceLeDiff, Nat.reduceEqDiff, Int.reduceNeg, Int.reduceToNat,
        Int.reduceSub, Int.reduceAdd, decide_True, decide_False, Nat.cast_ofNat,
        Nat.cast_zero, Nat.cast_one, Int.Nat.cast_ofNat_Int, sub_add_cancel,
        Bool.false_eq_true, eq_self_iff_true]
    refine ⟨_, rfl, ?_, ?_, ?_⟩
    · simp [Function.update_apply, hbase, hwi, haddr, hv, s1, s2, s3, p1, p2, p3, p4]
    · simp [Function.update_apply, hbase, hwi, haddr, hv, s1, s2, s3, p1, p2, p3, p4]
    · intro a h13 hsp
      simp only [Function.update_apply]
      split_ifs <;> simp_all
  · have hbase : wrap (m0.ram 3) = m0.ram 3 := wrap_eq_self (by omega) (by omega)
    have hwi : wrap i = i := wrap_eq_self (by omega) (by omega)
    have haddr : wrap (m0.ram 3 + i) = m0.ram 3 + i := wrap_eq_self (by omega) (by omega)
    have hv : wrap (m0.ram (m0.ram 3 + i).toNat) = m0.ram (m0.ram 3 + i).toNat :=
      wrap_eq_self hThv1 hThv2
    have s1 : ¬((0:Nat) = (m0.ram 3 + i).toNat) := by omega
    have s2 : ¬((m0.ram 3 + i).toNat = 0) := by omega
    have s3 : ¬((3:Nat) = (m0.ram 0).toNat) := by omega
    repeat
      rw [runFrom_unfold]
      simp only [execLine, applyDest, evalComp, predefAddr, pushPopPair,
        write_push_pop, write_push, write_pop, SegmentSymbol.from_str,
        SegmentSymbol.symbol, write_push_d, write_pop_to_d, pop_store_tail,
        Option.getD_some, Option.getD_none, String.reduceEq, String.reduceAppend,
        List.getD, List.get?_cons_zero, List.get?_cons_succ,
        List.length_cons, List.length_append, List.length_nil,
        Function.update_apply, List.cons_append, List.nil_append,
        ha, hsp1, he2, hbase, hwi, haddr, hv, s1, s2, s3, p1, p2, p3, p4,
        wrap_wrap, wrap_zero, Int.toNat_zero, Int.toNat_ofNat, Int.toNat_natCast,
        if_true, if_false, ite_true, ite_false, Nat.reduceAdd, Nat.reduceLT,
        Nat.reduceLeDiff, Nat.reduceEqDiff, Int.reduceNeg, Int.reduceToNat,
        Int.reduceSub, Int.reduceAdd, decide_True, decide_False, Nat.cast_ofNat,
        Nat.cast_zero, Nat.cast_one, Int.Nat.cast_ofNat_Int, sub_add_cancel,
        Bool.false_eq_true, eq_self_iff_true]
    refine ⟨_, rfl, ?_, ?_, ?_⟩
    · simp [Function.update_apply, hbase, hwi, haddr, hv, s1, s2, s3, p1, p2, p3, p4]
    · simp [Function.update_apply, hbase, hwi, haddr, hv, s1, s2, s3, p1, p2, p3, p4]
    · intro a h13 hsp
      simp only [Function.update_apply]
      split_ifs <;> simp_all
  · have hbase : wrap (m0.ram 4) = m0.ram 4 := wrap_eq_self (by omega) (by omega)
    have hwi : wrap i = i := wrap_eq_self (by omega) (by omega)
    have haddr : wrap (m0.ram 4 + i) = m0.ram 4 + i := wrap_eq_self (by omega) (by omega)
    have hv : wrap (m0.ram (m0.ram 4 + i).toNat) = m0.ram (m0.ram 4 + i).toNat :=
      wrap_eq_self hTtv1 hTtv2
    have s1 : ¬((0:Nat) = (m0.ram 4 + i).toNat) := by omega
    have s2 : ¬((m0.ram 4 + i).toNat = 0) := by omega
    have s3 : ¬((4:Nat) = (m0.ram 0).toNat) := by omega
    repeat
      rw [runFrom_unfold]
      simp only [execLine, applyDest, evalComp, predefAddr, pushPopPair,
        write_push_pop, write_push, write_pop, SegmentSymbol.from_str,
        SegmentSymbol.symbol, write_push_d, write_pop_to_d, pop_store_tail,
        Option.getD_some, Option.getD_none, String.reduceEq, String.reduceAppend,
        List.getD, List.get?_cons_zero, List.get?_cons_succ,
        List.length_cons, List.length_append, List.length_nil,
        Function.update_apply, List.cons_append, List.nil_append,
        ha, hsp1, he2, hbase, hwi, haddr, hv, s1, s2, s3, p1, p2, p3, p4,
        wrap_wrap, wrap_zero, Int.toNat_zero, Int.toNat_ofNat, Int.toNat_natCast,
        if_true, if_false, ite_true, ite_false, Nat.reduceAdd, Nat.reduceLT,
        Nat.reduceLeDiff, Nat.reduceEqDiff, Int.reduceNeg, Int.reduceToNat,
        Int.reduceSub, Int.reduceAdd, decide_True, decide_False, Nat.cast_ofNat,
        Nat.cast_zero, Nat.cast_one, Int.Nat.cast_ofNat_Int, sub_add_cancel,
        Bool.false_eq_true, eq_self_iff_true]
    refine ⟨_, rfl, ?_, ?_, ?_⟩
    · simp [Function.update_apply, hbase, hwi, haddr, hv, s1, s2, s3, p1, p2, p3, p4]
    · simp [Function.update_apply, hbase, hwi, haddr, hv, s1, s2, s3, p1, p2, p3, p4]
    · intro a h13 hsp
      simp only [Function.update_apply]
      split_ifs <;> simp_all
  · have hwi : wrap i = i := wrap_eq_self (by omega) (by omega)
    have hc5 : wrap (5:Int) = 5 := by decide
    have haddr : wrap (5 + i) = 5 + i := wrap_eq_self (by omega) (by omega)
    have hv : wrap (m0.ram (5 + i).toNat) = m0.ram (5 + i).toNat :=
      wrap_eq_self hTev1 hTev2
    have s1 : ¬((0:Nat) = ((5:Int) + i).toNat) := by omega
    have s2 : ¬(((5:Int) + i).toNat = 0) := by omega
    repeat
      rw [runFrom_unfold]
      simp only [execLine, applyDest, evalComp, predefAddr, pushPopPair,
        write_push_pop, write_push, write_pop, SegmentSymbol.from_str,
        SegmentSymbol.symbol, write_push_d, write_pop_to_d, pop_store_tail,
        Option.getD_some, Option.getD_none, String.reduceEq, String.reduceAppend,
        List.getD, List.get?_cons_zero, List.get?_cons_succ,
        List.length_cons, List.length_append, List.length_nil,
        Function.update_apply, List.cons_append, List.nil_append,
        ha, hsp1, he2, hwi, hc5, haddr, hv, s1, s2, p1, p2, p3, p4,
        wrap_wrap, wrap_zero, Int.toNat_zero, Int.toNat_ofNat, Int.toNat_natCast,
        if_true, if_false, ite_true, ite_false, Nat.reduceAdd, Nat.reduceLT,
        Nat.reduceLeDiff, Nat.reduceEqDiff, Int.reduceNeg, Int.reduceToNat,
        Int.reduceSub, Int.reduceAdd, decide_True, decide_False, Nat.cast_ofNat,
        Nat.cast_zero, Nat.cast_one, Int.Nat.cast_ofNat_Int, sub_add_cancel,
        Bool.false_eq_true, eq_self_iff_true]
    refine ⟨_, rfl, ?_, ?_, ?_⟩
    · simp [Function.update_apply, hwi, hc5, haddr, hv, s1, s2, p1, p2, p3, p4]
    · simp [Function.update_apply, hwi, hc5, haddr, hv, s1, s2, p1, p2, p3, p4]
    · intro a h13 hsp
      simp only [Function.update_apply]
      split_ifs <;> simp_all
  · have hwi : wrap i = i := wrap_eq_self (by omega) (by omega)
    have hc3 : wrap (3:Int) = 3 := by decide
    have haddr : wrap (3 + i) = 3 + i := wrap_eq_self (by omega) (by omega)
    have hv : wrap (m0.ram (3 + i).toNat) = m0.ram (3 + i).toNat :=
      wrap_eq_self hPv1 hPv2
    have s1 : ¬((0:Nat) = ((3:Int) + i).toNat) := by omega
    have s2 : ¬(((3:Int) + i).toNat = 0) := by omega
    repeat
      rw [runFrom_unfold]
      simp only [execLine, applyDest, evalComp, predefAddr, pushPopPair,
        write_push_pop, write_push, write_pop, SegmentSymbol.from_str,
        SegmentSymbol.symbol, write_push_d, write_pop_to_d, pop_store_tail,
        Option.getD_some, Option.getD_none, String.reduceEq, String.reduceAppend,
        List.getD, List.get?_cons_zero, List.get?_cons_succ,
        List.length_cons, List.length_append, List.length_nil,
        Function.update_apply, List.cons_append, List.nil_append,
        ha, hsp1, he2, hwi, hc3, haddr, hv, s1, s2, p1, p2, p3, p4,
        wrap_wrap, wrap_zero, Int.toNat_zero, Int.toNat_ofNat, Int.toNat_natCast,
        if_true, if_false, ite_true, ite_false, Nat.reduceAdd, Nat.reduceLT,
        Nat.reduceLeDiff, Nat.reduceEqDiff, Int.reduceNeg, Int.reduceToNat,
        Int.reduceSub, Int.reduceAdd, decide_True, decide_False, Nat.cast_ofNat,
        Nat.cast_zero, Nat.cast_one, Int.Nat.cast_ofNat_Int, sub_add_cancel,
        Bool.false_eq_true, eq_self_iff_true]
    refine ⟨_, rfl, ?_, ?_, ?_⟩
    · simp [Function.update_apply, hwi, hc3, haddr, hv, s1, s2, p1, p2, p3, p4]
    · simp [Function.update_apply, hwi, hc3, haddr, hv, s1, s2, p1, p2, p3, p4]
    · intro a h13 hsp
      simp only [Function.update_apply]
      split_ifs <;> simp_all
  · have hv : wrap (m0.ram (senv f i)) = m0.ram (senv f i) := wrap_eq_self hSv1 hSv2
    have s1 : ¬((0:Nat) = senv f i) := by omega
    have s2 : ¬(senv f i = 0) := by omega
    repeat
      rw [runFrom_unfold]
      simp only [execLine, applyDest, evalComp, predefAddr, pushPopPair,
        write_push_pop, write_push, write_pop, SegmentSymbol.from_str,
        SegmentSymbol.symbol, write_push_d, write_pop_to_d, pop_store_tail,
        Option.getD_some, Option.getD_none, String.reduceEq, String.reduceAppend,
        List.getD, List.get?_cons_zero, List.get?_cons_succ,
        List.length_cons, List.length_append, List.length_nil,
        Function.update_apply, List.cons_append, List.nil_append,
        ha, hsp1, he2, hv, s1, s2, p1, p2, p3, p4,
        wrap_wrap, wrap_zero, Int.toNat_zero, Int.toNat_ofNat, Int.toNat_natCast,
        if_true, if_false, ite_true, ite_false, Nat.reduceAdd, Nat.reduceLT,
        Nat.reduceLeDiff, Nat.reduceEqDiff, Int.reduceNeg, Int.reduceToNat,
        Int.reduceSub, Int.reduceAdd, decide_True, decide_False, Nat.cast_ofNat,
        Nat.cast_zero, Nat.cast_one, Int.Nat.cast_ofNat_Int, sub_add_cancel,
        Bool.false_eq_true, eq_self_iff_true]
    refine ⟨_, rfl, ?_, ?_, ?_⟩
    · simp [Function.update_apply, hv, s1, s2, p1, p2, p3, p4]
    · simp [Function.update_apply, hv, s1, s2, p1, p2, p3, p4]
    · intro a h13 hsp
      simp only [Function.update_apply]
      split_ifs <;> simp_all

/-- C6 counterexample: the claim as stated is false — `push local 0` then
`pop local 0` changes the stack cell at the pre-push top address (256),
which is neither the stack pointer cell nor a scratch register. -/
theorem c6_counterexample :
    ∃ m', runFrom (pushPopPair "F" "local" 0) (fun _ _ => 100) c6WMach 0 = some m' ∧
      m'.ram 256 ≠ c6WMach.ram 256 ∧
      (256:Nat) ≠ 0 ∧ (256:Nat) ≠ 13 ∧ (256:Nat) ≠ 14 ∧ (256:Nat) ≠ 15 := by
  have hs : stepN (pushPopPair "F" "local" 0) (fun _ _ => 100) 31 c6WMach 0 =
      some (_, 31) := rfl
  exact ⟨_, (stepN_sound hs).trans (runFrom_end (by decide)), by decide, by decide,
    by decide, by decide, by decide⟩

/-- C6 witness: the `local` pair on a concrete machine is depth-neutral and
leaves all cells but `R13` and the pre-push stack top unchanged. -/
theorem c6_witness :
    ∃ m', runFrom (pushPopPair "F" "local" 0) (fun _ _ => 100) c6WMach 0 = some m' ∧
      m'.ram 0 = c6WMach.ram 0 ∧
      m'.ram (c6WMach.ram 1 + 0).toNat = c6WMach.ram (c6WMach.ram 1 + 0).toNat ∧
      ∀ a : Nat, a ≠ 13 → a ≠ (c6WMach.ram 0).toNat → m'.ram a = c6WMach.ram a :=
  (c6_push_pop_pair "F" (fun _ _ => 100) c6WMach 0 (by decide) (by decide) (by decide)
    (by decide) (by decide) (by decide) (by decide) (by decide) (by decide)
    (by decide) (by decide) (by decide) (by decide) (by decide) (by decide)
    (by decide) (by decide) (by decide) (by decide) (by decide) (by decide)
    (by decide) (by decide) (by decide) (by decide) (by decide) (by decide)
    (by decide) (by decide) (by decide) (by decide) (by decide)).2.1

end VMTrans
